import Mathlib

/-!
Verification development for the inf YAML-to-scene diagram compiler.

The repository contains two pipelines for the same conversion task:
  * scripts/yaml_convert.py  — validator (YAMLValidator), layout engine wrapper
    (GraphvizLayoutEngine: size estimation, position normalization, canvas
    bounds) and scene assembler (YAMLToInfConverter);
  * tools/converter.py + tools/graphviz.py (and the near-identical
    tools/yaml2inf.py) — layout-free conversion with identifier allocation,
    followed by a layout application step.

Each pipeline is embedded below in its own namespace (Scripts, Converter,
Graphviz).  Python floats are modelled as rationals (all constants appearing
in the sources, including 8.4 = 42/5 and 1.5 = 3/2, are decimal and exact),
Python str values as lists of characters, Python int() truncation as pyInt,
and Python // floor division as Int.fdiv / rational floor.
-/

/-- Python int() truncates toward zero: floor for nonnegative rationals,
negated floor of the negation otherwise. -/
def pyInt (q : ℚ) : Int :=
  if 0 ≤ q then ⌊q⌋ else -⌊-q⌋

/-- Character strings of the Python sources, modelled as lists of
characters. -/
abbrev Str := List Char

/-- Python str.split for a one-character separator: s.split(sep).
Splitting the empty string yields a single empty piece, as in Python. -/
def splitOnChar (sep : Char) : Str → List Str
  | [] => [[]]
  | c :: rest =>
    match splitOnChar sep rest with
    | [] => [[c]]
    | l :: ls => if c = sep then [] :: l :: ls else (c :: l) :: ls

/-- text.split of the sources on the newline character. -/
def splitLines (s : Str) : List Str :=
  splitOnChar '\n' s

/-- Python str.strip restricted to the whitespace characters that occur in
the modelled documents. -/
def stripChars (s : Str) : Str :=
  ((s.dropWhile Char.isWhitespace).reverse.dropWhile Char.isWhitespace).reverse

/-- max(len(line) for line in lines): the fold from 0 agrees with Python's
max over the (always nonempty) result of str.split because lengths are
nonnegative. -/
def maxLineLenOf (lines : List Str) : Nat :=
  (lines.map List.length).foldl max 0

namespace Scripts

/-!
Model of scripts/yaml_convert.py, class GraphvizLayoutEngine: the state after
compute_layout is a per-node position (node_positions) together with a
per-node pixel size (node_sizes).  Both dictionaries are keyed by the node
text and are populated together, so the state is modelled as one list of
entries carrying a center position and a size.
-/

/-- One entry of GraphvizLayoutEngine.node_positions joined with its
node_sizes entry: center position (x, y) and size (w, h) in pixels. -/
structure LNode where
  x : ℚ
  y : ℚ
  w : ℚ
  h : ℚ
deriving DecidableEq, Repr

instance : Inhabited LNode := ⟨⟨0, 0, 0, 0⟩⟩

/-- min over a projection of a nonempty list; the float('inf') initial
accumulator of the source is modelled by starting the fold from the first
element (min inf a = a). -/
def minOver (f : LNode → ℚ) : List LNode → ℚ
  | [] => 0
  | n :: rest => rest.foldl (fun a m => min a (f m)) (f n)

/-- max over a projection of a nonempty list (float('-inf') initial
accumulator). -/
def maxOver (f : LNode → ℚ) : List LNode → ℚ
  | [] => 0
  | n :: rest => rest.foldl (fun a m => max a (f m)) (f n)

/-- The constant max_y + min_y of the vertical flip in normalize_positions,
where max_y is the maximal bottom edge and min_y the minimal top edge over
all nodes (centers adjusted by half the height). -/
def flipConst (ns : List LNode) : ℚ :=
  maxOver (fun n => n.y + n.h / 2) ns + minOver (fun n => n.y - n.h / 2) ns

/-- First block of normalize_positions: the vertical flip
y := max_y + min_y - y.  The x coordinates are not touched. -/
def flip_positions (ns : List LNode) : List LNode :=
  ns.map (fun n => { n with y := flipConst ns - n.y })

/-- offset_x of normalize_positions: min_x over left edges is unchanged by
the flip (the flip only rewrites y), so computing it on the flipped state
agrees with the source, which computes it before the flip. -/
def offsetX (ns : List LNode) : ℚ :=
  let minX := minOver (fun n => n.x - n.w / 2) ns
  if minX < 100 then 100 - minX else 0

/-- offset_y of normalize_positions, from the minimal top edge recomputed
after the flip. -/
def offsetY (ns : List LNode) : ℚ :=
  let minY := minOver (fun n => n.y - n.h / 2) ns
  if minY < 100 then 100 - minY else 0

/-- Second block of normalize_positions: move every node by the common
offset so the minimal left and top edges are at least the 100-pixel padding.
Applying a zero offset equals the source's skipped update. -/
def shift_positions (ns : List LNode) : List LNode :=
  ns.map (fun n => { n with x := n.x + offsetX ns, y := n.y + offsetY ns })

/-- GraphvizLayoutEngine.normalize_positions: returns unchanged on an empty
state, otherwise flips the vertical axis and shifts into the padded
canvas. -/
def normalize_positions (ns : List LNode) : List LNode :=
  match ns with
  | [] => []
  | _ => shift_positions (flip_positions ns)

/-- Result of GraphvizLayoutEngine.get_canvas_bounds: the canvas size
together with the node state after the normalize_positions mutation. -/
structure CanvasResult where
  canvasWidth : Int
  canvasHeight : Int
  nodes : List LNode
deriving Repr

/-- GraphvizLayoutEngine.get_canvas_bounds: normalizes the positions, then
sizes the canvas to the maximal right and bottom edges plus 100 padding,
floored at 1000. -/
def get_canvas_bounds (ns : List LNode) : CanvasResult :=
  match ns with
  | [] => ⟨2000, 2000, ns⟩
  | _ =>
    let ns' := normalize_positions ns
    let maxX := ns'.foldl (fun a n => max a (n.x + n.w / 2)) 0
    let maxY := ns'.foldl (fun a n => max a (n.y + n.h / 2)) 0
    ⟨max (pyInt (maxX + 100)) 1000, max (pyInt (maxY + 100)) 1000, ns'⟩

end Scripts

namespace Converter

/-!
Model of tools/converter.py (the same connection/group resolution code also
appears verbatim in tools/yaml2inf.py).  YAML scalars that act as node
references are either integers (zero-based indices) or strings (exact text
match), mirrored by CRef.  The version constant INF_VERSION is "2.5",
TABLE_CELL_WIDTH = 100, TABLE_CELL_HEIGHT = 40.
-/

/-- A node reference in a connection or group: Python distinguishes the two
styles with isinstance(ref, int). -/
inductive CRef where
  | int (i : Int)
  | str (s : String)
deriving DecidableEq, Repr

/-- The structured table payload read by create_inf_node:
node_yaml.get('table', \x7b\x7d) with rows/cols defaulting to 3 and a cells
dictionary.  The source keys the cells dictionary by the literal string
"[r, c]", a bijective encoding of the pair (r, c); the model keys it by the
pair itself. -/
structure CTableData where
  rows : Nat := 3
  cols : Nat := 3
  cells : List ((Nat × Nat) × String) := []
deriving DecidableEq, Repr

/-- One entry of the YAML nodes list, with the source's .get defaults. -/
structure CNode where
  text : String := ""
  ntype : String := "rectangle"
  align : String := "center"
  table : CTableData := {}
deriving DecidableEq, Repr

/-- One entry of the YAML connections list, with the source's defaults. -/
structure CConn where
  fromRef : CRef := .str ""
  toRef : CRef := .str ""
  directed : Bool := true
deriving DecidableEq, Repr

/-- One entry of the YAML groups list. -/
structure CGroup where
  name : String := "Group"
  nodes : List CRef := []
deriving DecidableEq, Repr

/-- The parsed YAML document as read by convert_yaml_to_inf:
data.get('nodes', []), data.get('connections', []), data.get('groups', []). -/
structure CDoc where
  nodes : List CNode := []
  connections : List CConn := []
  groups : List CGroup := []
deriving DecidableEq, Repr

/-- A cell of an emitted table node. -/
structure InfCell where
  text : String
  textAlign : String
deriving DecidableEq, Repr

/-- The table payload of an emitted table node (editingCell, constantly
null in the source, is omitted). -/
structure InfTable where
  rows : Nat
  cols : Nat
  colWidths : List Nat
  rowHeights : List Nat
  cells : List (List InfCell)
deriving DecidableEq, Repr

/-- An emitted node (create_inf_node): position and size are added later by
the layout engine; the subgraph path rewriting is filesystem-bound and
orthogonal to the claims modelled here, so it is omitted. -/
structure InfNode where
  id : Nat
  ntype : String
  text : String
  textAlign : String
  table : Option InfTable := none
deriving DecidableEq, Repr

/-- An emitted connection. -/
structure InfConn where
  id : Nat
  fromId : Nat
  toId : Nat
  directed : Bool
deriving DecidableEq, Repr

/-- An emitted group. -/
structure InfGroup where
  id : Nat
  name : String
  nodeIds : List Nat
deriving DecidableEq, Repr

/-- The emitted Inf JSON structure (without layout). -/
structure Inf where
  version : String
  nodes : List InfNode
  connections : List InfConn
  groups : List InfGroup
  nextId : Nat
deriving DecidableEq, Repr

/-- create_inf_node of tools/converter.py. -/
def create_inf_node (node_id : Nat) (n : CNode) : InfNode :=
  { id := node_id, ntype := n.ntype, text := n.text, textAlign := n.align,
    table :=
      if n.ntype = "table" then
        some { rows := n.table.rows, cols := n.table.cols,
               colWidths := List.replicate n.table.cols 100,
               rowHeights := List.replicate n.table.rows 40,
               cells := (List.range n.table.rows).map (fun r =>
                 (List.range n.table.cols).map (fun c =>
                   { text := (n.table.cells.lookup (r, c)).getD "",
                     textAlign := "center" })) }
      else none }

/-- resolve_node_id, the helper inside create_inf_connection: an integer is
a zero-based index checked against 0 <= ref < len(nodes_yaml) and resolved
through that node's text; a string is looked up directly.  The node_map
dictionary is modelled as an association list whose most recent assignment
sits at the head, so first-match lookup realizes dict overwriting. -/
def resolve_node_id (nodes_yaml : List CNode) (node_map : List (String × Nat)) :
    CRef → Option Nat
  | .int i =>
    if 0 ≤ i then
      match nodes_yaml.get? i.toNat with
      | some nd => node_map.lookup nd.text
      | none => none
    else none
  | .str s => node_map.lookup s

/-- create_inf_connection of tools/converter.py: the connection is dropped
(None) when either endpoint fails to resolve. -/
def create_inf_connection (conn_id : Nat) (c : CConn)
    (node_map : List (String × Nat)) (nodes_yaml : List CNode) : Option InfConn :=
  match resolve_node_id nodes_yaml node_map c.fromRef,
        resolve_node_id nodes_yaml node_map c.toRef with
  | some fid, some tid => some ⟨conn_id, fid, tid, c.directed⟩
  | _, _ => none

/-- create_inf_group of tools/converter.py: unresolvable references are
skipped, and a group that keeps no member is dropped.  The source tests the
looked-up id with Python truthiness (if node_id:), which also skips an id
equal to 0; the model mirrors that test. -/
def create_inf_group (group_id : Nat) (g : CGroup)
    (node_map : List (String × Nat)) (nodes_yaml : List CNode) : Option InfGroup :=
  let node_ids := g.nodes.foldl (fun acc ref =>
    match ref with
    | .int i =>
      if 0 ≤ i then
        match nodes_yaml.get? i.toNat with
        | some nd =>
          match node_map.lookup nd.text with
          | some nid => if nid = 0 then acc else acc ++ [nid]
          | none => acc
        | none => acc
      else acc
    | .str s =>
      match node_map.lookup s with
      | some nid => acc ++ [nid]
      | none => acc) []
  if node_ids = [] then none else some ⟨group_id, g.name, node_ids⟩

/-- The node-creation loop of convert_yaml_to_inf: emits nodes in
declaration order with ids from the running counter, and records
node_text_to_id assignments (most recent first, realizing dict
overwriting). -/
def buildNodes (acc : List InfNode) (m : List (String × Nat)) (nid : Nat) :
    List CNode → List InfNode × List (String × Nat) × Nat
  | [] => (acc, m, nid)
  | n :: rest =>
    buildNodes (acc ++ [create_inf_node nid n]) ((n.text, nid) :: m) (nid + 1) rest

/-- The connection-creation loop of convert_yaml_to_inf: the id counter
advances only when the connection is kept. -/
def buildConnections (node_map : List (String × Nat)) (nodes_yaml : List CNode)
    (acc : List InfConn) (nid : Nat) : List CConn → List InfConn × Nat
  | [] => (acc, nid)
  | c :: rest =>
    match create_inf_connection nid c node_map nodes_yaml with
    | some ic => buildConnections node_map nodes_yaml (acc ++ [ic]) (nid + 1) rest
    | none => buildConnections node_map nodes_yaml acc nid rest

/-- The group-creation loop of convert_yaml_to_inf: the id counter advances
only when the group is kept. -/
def buildGroups (node_map : List (String × Nat)) (nodes_yaml : List CNode)
    (acc : List InfGroup) (nid : Nat) : List CGroup → List InfGroup × Nat
  | [] => (acc, nid)
  | g :: rest =>
    match create_inf_group nid g node_map nodes_yaml with
    | some ig => buildGroups node_map nodes_yaml (acc ++ [ig]) (nid + 1) rest
    | none => buildGroups node_map nodes_yaml acc nid rest

/-- convert_yaml_to_inf of tools/converter.py (the inf_json part of its
result): None when the document has no nodes, otherwise nodes, connections
and groups with a single monotone id counter starting at 1. -/
def convert_yaml_to_inf (d : CDoc) : Option Inf :=
  if d.nodes = [] then none
  else
    let r1 := buildNodes [] [] 1 d.nodes
    let r2 := buildConnections r1.2.1 d.nodes [] r1.2.2 d.connections
    let r3 := buildGroups r1.2.1 d.nodes [] r2.2 d.groups
    some { version := "2.5", nodes := r1.1, connections := r2.1,
           groups := r3.1, nextId := r3.2 }

/-- All entity ids of an emitted scene, in emission order: nodes, then
connections, then groups. -/
def allIds (s : Inf) : List Nat :=
  s.nodes.map (·.id) ++ s.connections.map (·.id) ++ s.groups.map (·.id)

end Converter

/-- min over a nonempty list of rationals; the float('inf') initial
accumulator of the sources is modelled by folding from the first element. -/
def qListMin : List ℚ → ℚ
  | [] => 0
  | q :: rest => rest.foldl min q

/-- max over a nonempty list of rationals (float('-inf') accumulator). -/
def qListMax : List ℚ → ℚ
  | [] => 0
  | q :: rest => rest.foldl max q

namespace Graphviz

/-!
Model of tools/graphviz.py (constants and functions shared verbatim with
tools/yaml2inf.py): CHAR_WIDTH = 8, LINE_HEIGHT = 18, MIN_NODE_WIDTH = 120,
MIN_NODE_HEIGHT = 80, TEXT_NODE_WIDTH = 150, TEXT_NODE_HEIGHT = 60,
CODE_NODE_WIDTH = 200, CODE_NODE_HEIGHT = 100, CIRCLE_MIN_RADIUS = 50,
DIAMOND_MIN_SIZE = 100, TABLE_CELL_WIDTH = 100, TABLE_CELL_HEIGHT = 40,
NODE_PADDING = 20, SCALE_FACTOR = 96 / 72 = 4 / 3.
-/

/-- calculate_text_dimensions of tools/graphviz.py.  All branch results are
integer-valued except the circle branch, whose radius can be a half-integer
(size / 2 is Python float division) and which returns (radius, radius)
before the final int() conversion; the final int() on the other branches is
the identity because those values are integers. -/
def calculate_text_dimensions (text : Str) (node_type : String) : ℚ × ℚ :=
  let text := if text = [] then [' '] else text
  let lines := splitLines text
  let max_line_length : Nat := if lines = [] then 1 else maxLineLenOf lines
  let num_lines : Nat := lines.length
  let text_width : ℚ := max_line_length * 8
  let text_height : ℚ := num_lines * 18
  if node_type = "text" then
    (max 150 (text_width + 20), max 60 (text_height + 20))
  else if node_type = "code" then
    (max 200 (text_width + 40), max 100 (text_height + 20))
  else if node_type = "circle" then
    let size := max text_width text_height + 20
    let radius := max 50 (size / 2)
    (radius, radius)
  else if node_type = "diamond" then
    let size := max text_width text_height + 40
    let size := max 100 size
    (size, size)
  else if node_type = "table" then
    (300, 120)
  else
    (max 120 (text_width + 20), max 80 (text_height + 20))

/-- graphviz_to_inf_coords: scale points to pixels by 96/72 = 4/3 and flip
the y axis against the canvas height. -/
def graphviz_to_inf_coords (gv_x gv_y : ℚ) (canvas_height : Int) : Int × Int :=
  (pyInt (gv_x * (4 / 3)), pyInt ((canvas_height : ℚ) - gv_y * (4 / 3)))

/-- One YAML node as read by tools/graphviz.py: text, type, and for table
nodes the rows/cols of the structured table payload (defaults 3). -/
structure GNode where
  text : Str := []
  ntype : String := "rectangle"
  tableRows : Nat := 3
  tableCols : Nat := 3
deriving DecidableEq, Repr

/-- A bounding-box contribution inside calculate_canvas_bounds. -/
structure GBox where
  x : ℚ
  y : ℚ
  w : ℚ
  h : ℚ
deriving DecidableEq, Repr

/-- calculate_canvas_bounds of tools/graphviz.py: sizes the canvas to the
extent of the nodes at their RAW engine positions (unscaled points) plus
two 100-pixel paddings, clamped to [1000, 20000].  Positions without a
matching node are skipped; if none matches, the source would raise
(int of float inf), modelled by an arbitrary (1000, 1000). -/
def calculate_canvas_bounds (positions : List (Str × ℚ × ℚ))
    (nodes_yaml : List GNode) : Int × Int :=
  match positions with
  | [] => (2000, 2000)
  | _ =>
    let boxes : List GBox := positions.filterMap (fun p =>
      (nodes_yaml.find? (fun n => n.text = p.1)).map (fun node =>
        let wh : ℚ × ℚ :=
          if node.ntype = "table" then (node.tableCols * 100, node.tableRows * 40)
          else calculate_text_dimensions node.text node.ntype
        { x := p.2.1, y := p.2.2, w := wh.1, h := wh.2 }))
    match boxes with
    | [] => (1000, 1000)
    | _ =>
      let min_x := qListMin (boxes.map (fun b => b.x - ((⌊b.w / 2⌋ : Int) : ℚ)))
      let max_x := qListMax (boxes.map (fun b => b.x + ((⌊b.w / 2⌋ : Int) : ℚ)))
      let min_y := qListMin (boxes.map (fun b => b.y - ((⌊b.h / 2⌋ : Int) : ℚ)))
      let max_y := qListMax (boxes.map (fun b => b.y + ((⌊b.h / 2⌋ : Int) : ℚ)))
      (max 1000 (min (pyInt (max_x - min_x + 200)) 20000),
       max 1000 (min (pyInt (max_y - min_y + 200)) 20000))

/-- A node of the scene emitted by apply_layout, with its stamped geometry.
Rectangle, text, code and diamond nodes carry x, y (top-left), width and
height; circle nodes carry x, y (center) and radius (the source assigns
node['radius'] = width, where width is the radius value returned by
calculate_text_dimensions); table nodes get x, y (top-left) while their
extent remains cols * 100 by rows * 40, recorded here as width/height. -/
structure GeoNode where
  text : Str
  ntype : String
  x : Int
  y : Int
  width : Int := 0
  height : Int := 0
  radius : ℚ := 0
deriving DecidableEq, Repr

/-- The complete scene produced by apply_layout. -/
structure GScene where
  nodes : List GeoNode
  canvasWidth : Int
  canvasHeight : Int
  zoom : ℚ := 1
deriving DecidableEq, Repr

/-- apply_layout of tools/graphviz.py.  The external engine invocation
(create_graphviz_layout) is the black-box layout collaborator; its output
positions are the gv_positions parameter.  The single nodes parameter plays
the role of both yaml_data nodes and inf_json nodes, whose text/type/table
fields coincide by construction in converter.py.  Positions are scaled by
4/3 and flipped against canvasHeight, then offset by the 100-pixel padding;
the canvas itself comes from calculate_canvas_bounds on the unscaled
positions. -/
def apply_layout (nodes : List GNode) (gv_positions : List (Str × ℚ × ℚ)) : GScene :=
  let cb := calculate_canvas_bounds gv_positions nodes
  let adjusted : List (Str × Int × Int) := gv_positions.map (fun p =>
    let ic := graphviz_to_inf_coords p.2.1 p.2.2 cb.2
    (p.1, ic.1 + 100, ic.2 + 100))
  let geo := nodes.map (fun n =>
    let pos : Int × Int :=
      ((adjusted.find? (fun a => a.1 = n.text)).map (fun a => a.2)).getD (500, 500)
    if n.ntype = "table" then
      let total_width : Int := n.tableCols * 100
      let total_height : Int := n.tableRows * 40
      { text := n.text, ntype := n.ntype,
        x := pos.1 - total_width.fdiv 2, y := pos.2 - total_height.fdiv 2,
        width := total_width, height := total_height }
    else if n.ntype = "circle" then
      let wh := calculate_text_dimensions n.text n.ntype
      { text := n.text, ntype := n.ntype, x := pos.1, y := pos.2, radius := wh.1 }
    else
      let wh := calculate_text_dimensions n.text n.ntype
      { text := n.text, ntype := n.ntype,
        x := pos.1 - ⌊wh.1 / 2⌋, y := pos.2 - ⌊wh.2 / 2⌋,
        width := ⌊wh.1⌋, height := ⌊wh.2⌋ })
  { nodes := geo, canvasWidth := cb.1, canvasHeight := cb.2 }

end Graphviz

namespace Scripts

/-!
Model of scripts/yaml_convert.py, class YAMLToInfConverter /
GraphvizLayoutEngine: markdown-table parsing (parse_table_cells), table
sizing (calculate_table_dimensions, identical code in both classes) and
per-node size estimation (GraphvizLayoutEngine.calculate_node_size).
-/

/-- A parsed markdown-table cell: text and column alignment. -/
structure Cell where
  text : Str
  textAlign : String
deriving DecidableEq, Repr

/-- lines = [line.strip() for line in table_str.strip().split('\n')
if line.strip()]. -/
def tableLines (table_str : Str) : List Str :=
  ((splitLines (stripChars table_str)).map stripChars).filter (fun l => l ≠ [])

/-- Python substring containment "sub in s", decided by scanning every
suffix. -/
def hasSubstr (sub : Str) : Str → Bool
  | [] => sub.isEmpty
  | c :: rest => sub.isPrefixOf (c :: rest) || hasSubstr sub rest

/-- Python "'---' in line": three consecutive dashes occur in the line. -/
def hasDashes (l : Str) : Bool :=
  hasSubstr ['-', '-', '-'] l

/-- Alignment of one separator cell: ":--:" is center, "--:" is right,
anything else left. -/
def parseAlignCell (c : Str) : String :=
  if c.head? = some ':' ∧ c.getLast? = some ':' then "center"
  else if c.getLast? = some ':' then "right"
  else "left"

/-- The alignment row of parse_table_cells: the first line containing
"---" is split on the pipes, stripped, and non-empty cells are mapped to
alignments; without a separator line there are no alignments. -/
def parse_alignments (lines : List Str) : List String :=
  match lines.find? hasDashes with
  | some line =>
    (((splitOnChar '|' line).map stripChars).filter (fun c => c ≠ [])).map parseAlignCell
  | none => []

/-- if row_cells and not row_cells[0]: row_cells = row_cells[1:]. -/
def dropLeadingEmpty : List Str → List Str
  | [] => []
  | c :: rest => if c = [] then rest else c :: rest

/-- if row_cells and not row_cells[-1]: row_cells = row_cells[:-1]. -/
def dropTrailingEmpty (l : List Str) : List Str :=
  match l.getLast? with
  | some c => if c = [] then l.dropLast else l
  | none => l

/-- parse_table_cells of scripts/yaml_convert.py (identical in
YAMLToInfConverter and GraphvizLayoutEngine): separator lines are skipped,
every other line is split on pipes with stripped cells, outer empty cells
removed, and each cell paired with its column alignment (default left). -/
def parse_table_cells (table_str : Str) : List (List Cell) :=
  let lines := tableLines table_str
  let alignments := parse_alignments lines
  (lines.filter (fun l => ¬ hasDashes l)).map (fun line =>
    let row_cells := dropTrailingEmpty (dropLeadingEmpty
      ((splitOnChar '|' line).map stripChars))
    row_cells.enum.map (fun p =>
      { text := p.2, textAlign := (alignments.get? p.1).getD "left" }))

/-- required_width of a non-empty cell:
int(max line length * AVG_CHAR_WIDTH + PADDING) with AVG_CHAR_WIDTH = 8.4 =
42/5 and PADDING = 20. -/
def requiredCellWidth (t : Str) : Int :=
  pyInt ((maxLineLenOf (splitLines t) : ℚ) * (42 / 5) + 20)

/-- required_height of a non-empty cell: line count * LINE_HEIGHT + PADDING
with LINE_HEIGHT = 18 and PADDING = 20 (integer arithmetic, int() is the
identity). -/
def requiredCellHeight (t : Str) : Int :=
  (splitLines t).length * 18 + 20

/-- One step of the column-width loop: a row contributes the required width
of its cell at column c unless the row is too short for the column or the
cell text is empty (Python truthiness of cell_text). -/
def widthStep (c : Nat) (acc : Int) (row : List Cell) : Int :=
  match row.get? c with
  | some cell => if cell.text = [] then acc else max acc (requiredCellWidth cell.text)
  | none => acc

/-- One step of the row-height loop, symmetric to widthStep. -/
def heightStep (row : List Cell) (acc : Int) (c : Nat) : Int :=
  match row.get? c with
  | some cell => if cell.text = [] then acc else max acc (requiredCellHeight cell.text)
  | none => acc

/-- The inner loop of the column-width pass: fold the rows of one column
index, starting from MIN_WIDTH = 40. -/
def colWidthFold (cells : List (List Cell)) (c : Nat) : Int :=
  cells.foldl (widthStep c) 40

/-- The inner loop of the row-height pass: fold the column indices
0..cols-1 of one row, starting from MIN_HEIGHT = 30. -/
def rowHeightFold (cols : Nat) (row : List Cell) : Int :=
  (List.range cols).foldl (heightStep row) 30

/-- calculate_table_dimensions of scripts/yaml_convert.py: ([100], [40]) on
an empty cell array or empty first row; otherwise per-column maxima of
required widths (floored at 40) and per-row maxima of required heights
(floored at 30), with cols taken from the first row. -/
def calculate_table_dimensions (cells : List (List Cell)) : List Int × List Int :=
  match cells with
  | [] => ([100], [40])
  | row0 :: _ =>
    if row0.length = 0 then ([100], [40])
    else
      ((List.range row0.length).map (colWidthFold cells),
       cells.map (rowHeightFold row0.length))

/-- One YAML node as read by GraphvizLayoutEngine.calculate_node_size:
node.get('text', ''), node.get('type', 'rectangle'), node.get('table', ''). -/
structure SNode where
  text : Str := []
  ntype : String := "rectangle"
  table : Str := []
deriving DecidableEq, Repr

/-- GraphvizLayoutEngine.calculate_node_size: per-shape pixel size
(char_width = 8, line_height = 20), converted to inches for Graphviz by the
final division by 72.  Python's max(a, b, c) is max a (max b c). -/
def calculate_node_size (node : SNode) : ℚ × ℚ :=
  let lines := splitLines node.text
  let max_line_len : Nat := if lines = [] then 0 else maxLineLenOf lines
  let num_lines : Nat := lines.length
  let wh : ℚ × ℚ :=
    if node.ntype = "table" then
      let dims := calculate_table_dimensions (parse_table_cells node.table)
      (((dims.1.foldl (· + ·) 0 : Int) : ℚ), ((dims.2.foldl (· + ·) 0 : Int) : ℚ))
    else if node.ntype = "circle" then
      let radius : ℚ := max 60 (max ((max_line_len : ℚ) * 8 / 2) ((num_lines : ℚ) * 20 / 2))
      (radius * 2, radius * 2)
    else if node.ntype = "diamond" then
      (max 120 ((max_line_len : ℚ) * 8 * (3 / 2)), max 120 ((num_lines : ℚ) * 20 * (3 / 2)))
    else if node.ntype = "code" then
      (max 200 ((max_line_len : ℚ) * 8 + 40), max 100 ((num_lines : ℚ) * 20 + 40))
    else
      (max 150 ((max_line_len : ℚ) * 8 + 20), max 60 ((num_lines : ℚ) * 20 + 20))
  (wh.1 / 72, wh.2 / 72)

/-- The node_sizes entry stored by compute_layout for a regular node: the
inch size from calculate_node_size scaled back to pixels
(node_sizes[text] = (width * 72, height * 72)). -/
def node_size_px (node : SNode) : ℚ × ℚ :=
  ((calculate_node_size node).1 * 72, (calculate_node_size node).2 * 72)

end Scripts

namespace SpecFormula

/-- The circle sizing rule exactly as the specification words it
(section 4.3): radius = max(minRadius, max(maxLineLength * charWidth,
lineCount * lineHeight) / 2); the reported size is stated to be
(2 * radius, 2 * radius).  Kept separate from the source embeddings so the
two can be compared. -/
def specCircleRadius (minRadius charWidth lineHeight : ℚ) (text : Str) : ℚ :=
  max minRadius
    (max ((maxLineLenOf (splitLines text) : ℚ) * charWidth)
         (((splitLines text).length : ℚ) * lineHeight) / 2)

end SpecFormula

namespace Scripts

/-!
Model of scripts/yaml_convert.py, class YAMLValidator.  The validator
receives the untyped result of yaml.safe_load, modelled by YVal; its
formatted error and warning message strings are modelled as structured
values (VErr, VWarn) carrying the same data.  The mutable validator state
(errors, warnings, node_texts, connection_pairs) is threaded explicitly.
-/

/-- An untyped YAML value as produced by yaml.safe_load.  Mapping keys in
the modelled documents are strings. -/
inductive YVal where
  | str (s : Str)
  | int (n : Int)
  | bool (b : Bool)
  | float (q : ℚ)
  | list (xs : List YVal)
  | dict (kvs : List (String × YVal))

set_option maxHeartbeats 1600000 in
/-- The validator's error messages, as structured values. -/
inductive VErr where
  | rootNotDict
  | unknownRootKey (k : String)
  | missingNodes
  | nodesNotList
  | nodeNotDict (i : Nat)
  | nodeUnknownKey (i : Nat) (k : String)
  | missingText (i : Nat)
  | textNotString (i : Nat)
  | textEmpty (i : Nat)
  | duplicateText (i : Nat) (t : Str)
  | typeNotString (i : Nat)
  | invalidType (i : Nat) (ty : Str)
  | tableRequired (i : Nat)
  | alignNotString (i : Nat)
  | invalidAlign (i : Nat) (a : Str)
  | attrNotString (i : Nat)
  | invalidAttr (i : Nat) (a : Str)
  | subgraphNotString (i : Nat)
  | tableNotString (i : Nat)
  | tableTooShort (i : Nat)
  | tableNoSeparator (i : Nat)
  | connectionsNotList
  | connNotDict (i : Nat)
  | connUnknownKey (i : Nat) (k : String)
  | missingFrom (i : Nat)
  | fromNotString (i : Nat)
  | fromNotFound (i : Nat) (t : Str)
  | missingTo (i : Nat)
  | toNotString (i : Nat)
  | toNotFound (i : Nat) (t : Str)
  | selfConnection (i : Nat) (t : Str)
  | duplicateConnection (i : Nat) (f t : Str)
  | directedNotBool (i : Nat)
  | groupsNotList
  | groupNotDict (i : Nat)
  | groupUnknownKey (i : Nat) (k : String)
  | missingName (i : Nat)
  | nameNotString (i : Nat)
  | missingGroupNodes (i : Nat)
  | groupNodesNotList (i : Nat)
  | groupTooSmall (i : Nat) (n : Nat)
  | groupRefNotString (i j : Nat)
  | groupRefNotFound (i j : Nat) (t : Str)
  | layoutNotDict
  | layoutUnknownKey (k : String)
  | engineNotString
  | invalidEngine (e : Str)
  | rankdirNotString
  | invalidRankdir (rd : Str)
  | ranksepNotNumber
  | ranksepNotPositive
  | nodesepNotNumber
  | nodesepNotPositive
deriving Repr

/-- The validator's warning messages, as structured values. -/
inductive VWarn where
  | noNodes
  | problematicBackslash (i : Nat)
  | problematicChar (i : Nat) (ch : Char)
  | problematicDots (i : Nat)
  | subgraphExt (i : Nat)
deriving DecidableEq, Repr

/-- The mutable state of YAMLValidator: accumulated diagnostics plus the
seen node texts and connection pairs (Python sets, modelled as lists
without duplicates since elements are only added when absent). -/
structure VState where
  errors : List VErr := []
  warnings : List VWarn := []
  node_texts : List Str := []
  connection_pairs : List (Str × Str) := []
deriving Repr

/-- self.error(msg): append to the error list. -/
def addError (st : VState) (e : VErr) : VState :=
  { st with errors := st.errors ++ [e] }

/-- self.warning(msg): append to the warning list. -/
def addWarning (st : VState) (w : VWarn) : VState :=
  { st with warnings := st.warnings ++ [w] }

/-- for i, x in enumerate(l): state-threading fold with a running index. -/
def foldIdx {α : Type} (f : VState → α → Nat → VState) :
    VState → List α → Nat → VState
  | st, [], _ => st
  | st, v :: rest, i => foldIdx f (f st v i) rest (i + 1)

def VALID_NODE_TYPES : List Str :=
  ["rectangle".toList, "circle".toList, "diamond".toList, "text".toList,
   "code".toList, "table".toList]

def VALID_ALIGNMENTS : List Str :=
  ["left".toList, "center".toList, "right".toList]

def VALID_ENGINES : List Str :=
  ["dot".toList, "neato".toList, "fdp".toList, "circo".toList, "twopi".toList]

def VALID_RANKDIRS : List Str :=
  ["TB".toList, "LR".toList, "BT".toList, "RL".toList]

def VALID_ATTRS : List Str :=
  ["title".toList, "intro".toList]

def VALID_NODE_KEYS : List String :=
  ["text", "type", "align", "subgraph", "table", "attr"]

def VALID_CONNECTION_KEYS : List String :=
  ["from", "to", "directed"]

def VALID_GROUP_KEYS : List String :=
  ["name", "nodes"]

def VALID_LAYOUT_KEYS : List String :=
  ["engine", "rankdir", "ranksep", "nodesep"]

def VALID_ROOT_KEYS : List String :=
  ["nodes", "connections", "groups", "layout"]

/-- The regex backslash-not-followed-by-n check of validate_node: a
backslash whose successor is not the letter n (or which ends the text). -/
def hasBadBackslash : Str → Bool
  | [] => false
  | c :: rest =>
    if c = '\\' ∧ rest.head? ≠ some 'n' then true else hasBadBackslash rest

/-- The PROBLEMATIC_CHARS loop of validate_node.  The loop breaks (skipping
all later character checks) only after the backslash warning fires;
otherwise each remaining character, and the two-character sequence "..",
is checked for containment.  The quote and brace characters are written by
code point: 34 is the double quote, 39 the single quote, 123 and 125 the
braces. -/
def problematic_warnings (st : VState) (t : Str) (i : Nat) : VState :=
  if hasBadBackslash t then addWarning st (.problematicBackslash i)
  else
    let st := if t.contains (Char.ofNat 34) then
      addWarning st (.problematicChar i (Char.ofNat 34)) else st
    let st := if t.contains (Char.ofNat 39) then
      addWarning st (.problematicChar i (Char.ofNat 39)) else st
    let st := if t.contains '<' then addWarning st (.problematicChar i '<') else st
    let st := if t.contains '>' then addWarning st (.problematicChar i '>') else st
    let st := if t.contains (Char.ofNat 123) then
      addWarning st (.problematicChar i (Char.ofNat 123)) else st
    let st := if t.contains (Char.ofNat 125) then
      addWarning st (.problematicChar i (Char.ofNat 125)) else st
    if hasSubstr ['.', '.'] t then addWarning st (.problematicDots i) else st

/-- subgraph.endswith('.yaml'). -/
def endsWithYaml (s : Str) : Bool :=
  ".yaml".toList.isSuffixOf s

/-- YAMLValidator.validate_table. -/
def validate_table (st : VState) (v : YVal) (i : Nat) : VState :=
  match v with
  | .str s =>
    let lines := tableLines s
    if lines.length < 2 then addError st (.tableTooShort i)
    else if lines.any (fun l => hasDashes l && l.contains '|') then st
    else addError st (.tableNoSeparator i)
  | _ => addError st (.tableNotString i)

/-- The unknown-key loops shared by every validator method: an error for
each key outside the valid set. -/
def check_unknown_keys (valid : List String) (mk : String → VErr)
    (st : VState) (kvs : List (String × YVal)) : VState :=
  kvs.foldl (fun st kv =>
    if kv.1 ∈ valid then st else addError st (mk kv.1)) st

/-- The duplicate-text check of validate_node: an error on a repeated text,
otherwise the text joins the node_texts set. -/
def check_node_duplicate (st : VState) (t : Str) (i : Nat) : VState :=
  if t ∈ st.node_texts then addError st (.duplicateText i t)
  else { st with node_texts := t :: st.node_texts }

/-- The optional type field of validate_node, including the rule that
a table type requires a table field (only when the type equals the exact
string table). -/
def check_node_type (st : VState) (kvs : List (String × YVal)) (i : Nat) : VState :=
  match kvs.lookup "type" with
  | none => st
  | some (.str ty) =>
    let st := if ty ∈ VALID_NODE_TYPES then st else addError st (.invalidType i ty)
    if ty = "table".toList ∧ (kvs.lookup "table").isNone then
      addError st (.tableRequired i)
    else st
  | some _ => addError st (.typeNotString i)

/-- The optional align field of validate_node. -/
def check_node_align (st : VState) (kvs : List (String × YVal)) (i : Nat) : VState :=
  match kvs.lookup "align" with
  | none => st
  | some (.str a) =>
    if a ∈ VALID_ALIGNMENTS then st else addError st (.invalidAlign i a)
  | some _ => addError st (.alignNotString i)

/-- The optional attr field of validate_node. -/
def check_node_attr (st : VState) (kvs : List (String × YVal)) (i : Nat) : VState :=
  match kvs.lookup "attr" with
  | none => st
  | some (.str a) =>
    if a ∈ VALID_ATTRS then st else addError st (.invalidAttr i a)
  | some _ => addError st (.attrNotString i)

/-- The optional subgraph field of validate_node (a non-yaml extension is
only a warning). -/
def check_node_subgraph (st : VState) (kvs : List (String × YVal)) (i : Nat) : VState :=
  match kvs.lookup "subgraph" with
  | none => st
  | some (.str sg) =>
    if endsWithYaml sg then st else addWarning st (.subgraphExt i)
  | some _ => addError st (.subgraphNotString i)

/-- The optional table field of validate_node. -/
def check_node_table (st : VState) (kvs : List (String × YVal)) (i : Nat) : VState :=
  match kvs.lookup "table" with
  | none => st
  | some tbl => validate_table st tbl i

/-- YAMLValidator.validate_node: unknown keys, the required text field
(early return on a missing, non-string or blank text), duplicate-text
detection against the accumulated node_texts set, content-safety warnings,
and the optional type/align/attr/subgraph/table fields. -/
def validate_node (st : VState) (v : YVal) (i : Nat) : VState :=
  match v with
  | .dict kvs =>
    let st := check_unknown_keys VALID_NODE_KEYS (.nodeUnknownKey i) st kvs
    match kvs.lookup "text" with
    | none => addError st (.missingText i)
    | some (.str t) =>
      if stripChars t = [] then addError st (.textEmpty i)
      else
        let st := check_node_duplicate st t i
        let st := problematic_warnings st t i
        let st := check_node_type st kvs i
        let st := check_node_align st kvs i
        let st := check_node_attr st kvs i
        let st := check_node_subgraph st kvs i
        check_node_table st kvs i
    | some _ => addError st (.textNotString i)
  | _ => addError st (.nodeNotDict i)

/-- The from endpoint of validate_connection: type check and existence in
the node_texts set (errors accumulate, no early return). -/
def check_from (st : VState) (fv : YVal) (i : Nat) : VState :=
  match fv with
  | .str ft => if ft ∈ st.node_texts then st else addError st (.fromNotFound i ft)
  | _ => addError st (.fromNotString i)

/-- The to endpoint of validate_connection. -/
def check_to (st : VState) (tv : YVal) (i : Nat) : VState :=
  match tv with
  | .str tt => if tt ∈ st.node_texts then st else addError st (.toNotFound i tt)
  | _ => addError st (.toNotString i)

/-- The self-connection check of validate_connection: fires whenever both
endpoints are strings and textually equal. -/
def check_self (st : VState) (fv tv : YVal) (i : Nat) : VState :=
  match fv, tv with
  | .str ft, .str tt => if ft = tt then addError st (.selfConnection i ft) else st
  | _, _ => st

/-- The duplicate (from, to) pair check of validate_connection. -/
def check_dup_pair (st : VState) (fv tv : YVal) (i : Nat) : VState :=
  match fv, tv with
  | .str ft, .str tt =>
    if (ft, tt) ∈ st.connection_pairs then addError st (.duplicateConnection i ft tt)
    else { st with connection_pairs := (ft, tt) :: st.connection_pairs }
  | _, _ => st

/-- The optional directed field of validate_connection. -/
def check_directed (st : VState) (kvs : List (String × YVal)) (i : Nat) : VState :=
  match kvs.lookup "directed" with
  | none => st
  | some (.bool _) => st
  | some _ => addError st (.directedNotBool i)

/-- YAMLValidator.validate_connection: unknown keys, required from/to with
existence checks (early return only when the key itself is missing), the
self-connection check, duplicate (from, to) detection, and the optional
directed boolean. -/
def validate_connection (st : VState) (v : YVal) (i : Nat) : VState :=
  match v with
  | .dict kvs =>
    let st := check_unknown_keys VALID_CONNECTION_KEYS (.connUnknownKey i) st kvs
    match kvs.lookup "from" with
    | none => addError st (.missingFrom i)
    | some fv =>
      let st := check_from st fv i
      match kvs.lookup "to" with
      | none => addError st (.missingTo i)
      | some tv =>
        let st := check_to st tv i
        let st := check_self st fv tv i
        let st := check_dup_pair st fv tv i
        check_directed st kvs i
  | _ => addError st (.connNotDict i)

/-- YAMLValidator.validate_group. -/
def validate_group (st : VState) (v : YVal) (i : Nat) : VState :=
  match v with
  | .dict kvs =>
    let st := check_unknown_keys VALID_GROUP_KEYS (.groupUnknownKey i) st kvs
    let st :=
      match kvs.lookup "name" with
      | none => addError st (.missingName i)
      | some (.str _) => st
      | some _ => addError st (.nameNotString i)
    match kvs.lookup "nodes" with
    | none => addError st (.missingGroupNodes i)
    | some nv =>
      match nv with
      | .list refs =>
        let st := if refs.length < 2 then addError st (.groupTooSmall i refs.length)
                  else st
        foldIdx (fun st rv j =>
          match rv with
          | .str t =>
            if t ∈ st.node_texts then st else addError st (.groupRefNotFound i j t)
          | _ => addError st (.groupRefNotString i j)) st refs 0
      | _ => addError st (.groupNodesNotList i)
  | _ => addError st (.groupNotDict i)

/-- YAMLValidator.validate_layout.  Python's bool is a subclass of int, so
a boolean ranksep/nodesep passes the isinstance number check and is
compared as 1 or 0 against the positivity requirement. -/
def validate_layout (st : VState) (v : YVal) : VState :=
  match v with
  | .dict kvs =>
    let st := check_unknown_keys VALID_LAYOUT_KEYS (.layoutUnknownKey) st kvs
    let st :=
      match kvs.lookup "engine" with
      | none => st
      | some (.str e) => if e ∈ VALID_ENGINES then st else addError st (.invalidEngine e)
      | some _ => addError st .engineNotString
    let st :=
      match kvs.lookup "rankdir" with
      | none => st
      | some (.str rd) =>
        if rd ∈ VALID_RANKDIRS then st else addError st (.invalidRankdir rd)
      | some _ => addError st .rankdirNotString
    let st :=
      match kvs.lookup "ranksep" with
      | none => st
      | some (.int n) => if n ≤ 0 then addError st .ranksepNotPositive else st
      | some (.float q) => if q ≤ 0 then addError st .ranksepNotPositive else st
      | some (.bool b) => if b then st else addError st .ranksepNotPositive
      | some _ => addError st .ranksepNotNumber
    match kvs.lookup "nodesep" with
    | none => st
    | some (.int n) => if n ≤ 0 then addError st .nodesepNotPositive else st
    | some (.float q) => if q ≤ 0 then addError st .nodesepNotPositive else st
    | some (.bool b) => if b then st else addError st .nodesepNotPositive
    | some _ => addError st .nodesepNotNumber
  | _ => addError st .layoutNotDict

/-- The connections section of validate. -/
def connections_section (st : VState) (kvs : List (String × YVal)) : VState :=
  match kvs.lookup "connections" with
  | none => st
  | some (.list cs) => foldIdx validate_connection st cs 0
  | some _ => addError st .connectionsNotList

/-- The groups section of validate. -/
def groups_section (st : VState) (kvs : List (String × YVal)) : VState :=
  match kvs.lookup "groups" with
  | none => st
  | some (.list gs) => foldIdx validate_group st gs 0
  | some _ => addError st .groupsNotList

/-- The layout section of validate. -/
def layout_section (st : VState) (kvs : List (String × YVal)) : VState :=
  match kvs.lookup "layout" with
  | none => st
  | some lv => validate_layout st lv

/-- YAMLValidator.validate: unknown root keys, then the required nodes list
(returning immediately when the root is not a mapping or nodes is missing
or not a list), then nodes, connections, groups and layout in order. -/
def validate (v : YVal) : VState :=
  match v with
  | .dict kvs =>
    let st := check_unknown_keys VALID_ROOT_KEYS (.unknownRootKey) {} kvs
    match kvs.lookup "nodes" with
    | none => addError st .missingNodes
    | some nv =>
      match nv with
      | .list ns =>
        let st := if ns.length = 0 then addWarning st .noNodes else st
        let st := foldIdx validate_node st ns 0
        let st := connections_section st kvs
        let st := groups_section st kvs
        layout_section st kvs
      | _ => addError st .nodesNotList
  | _ => addError {} .rootNotDict

/-- Which stage of convert_single_file a document reaches. -/
inductive Stage where
  | rejectedBeforeLayout
  | layoutAttempted
deriving DecidableEq, Repr

/-- The control flow of convert_single_file after YAML parsing: validation
runs first and print_results returns success exactly when no error was
collected; on failure the function returns before
GraphvizLayoutEngine.compute_layout is invoked, otherwise layout is
attempted. -/
def convert_single_file_stage (doc : YVal) : Stage :=
  if (validate doc).errors.isEmpty then .layoutAttempted else .rejectedBeforeLayout

end Scripts

-- ===================== theorems =====================

namespace Scripts

theorem foldl_min_le_init (f : LNode → ℚ) (l : List LNode) (a : ℚ) :
    l.foldl (fun b m => min b (f m)) a ≤ a := by
  induction l generalizing a with
  | nil => simp
  | cons m rest ih =>
    rw [List.foldl_cons]
    exact le_trans (ih (min a (f m))) (min_le_left _ _)

theorem foldl_min_le_mem (f : LNode → ℚ) {l : List LNode} {nd : LNode}
    (h : nd ∈ l) (a : ℚ) : l.foldl (fun b m => min b (f m)) a ≤ f nd := by
  induction l generalizing a with
  | nil => simp at h
  | cons m rest ih =>
    rw [List.foldl_cons]
    rcases List.mem_cons.mp h with h1 | h2
    · subst h1; exact le_trans (foldl_min_le_init f rest _) (min_le_right _ _)
    · exact ih h2 _

theorem minOver_le_of_mem (f : LNode → ℚ) {ns : List LNode} {nd : LNode}
    (h : nd ∈ ns) : minOver f ns ≤ f nd := by
  cases ns with
  | nil => simp at h
  | cons n rest =>
    rcases List.mem_cons.mp h with h1 | h2
    · subst h1; exact foldl_min_le_init f rest _
    · exact foldl_min_le_mem f h2 _

theorem le_foldl_max_init (f : LNode → ℚ) (l : List LNode) (a : ℚ) :
    a ≤ l.foldl (fun b m => max b (f m)) a := by
  induction l generalizing a with
  | nil => simp
  | cons m rest ih =>
    rw [List.foldl_cons]
    exact le_trans (le_max_left _ _) (ih (max a (f m)))

theorem le_foldl_max_mem (f : LNode → ℚ) {l : List LNode} {nd : LNode}
    (h : nd ∈ l) (a : ℚ) : f nd ≤ l.foldl (fun b m => max b (f m)) a := by
  induction l generalizing a with
  | nil => simp at h
  | cons m rest ih =>
    rw [List.foldl_cons]
    rcases List.mem_cons.mp h with h1 | h2
    · subst h1; exact le_trans (le_max_right _ _) (le_foldl_max_init f rest _)
    · exact ih h2 _

theorem lnode_getD_map (g : LNode → LNode) (l : List LNode) (k : Nat)
    (hk : k < l.length) : (l.map g).getD k default = g (l.getD k default) := by
  simp [List.getD_eq_getElem?_getD, List.getElem?_map, List.getElem?_eq_getElem hk]

/-- C10: coordinate normalization is a rigid shift apart from the vertical
flip: the flip leaves every x coordinate unchanged, and for any two nodes
the difference of x coordinates survives the whole normalization, while the
difference of y coordinates after the flip survives the subsequent shift. -/
theorem normalize_positions_rigid (ns : List LNode) (i j : Nat)
    (hi : i < ns.length) (hj : j < ns.length) :
    ((flip_positions ns).getD i default).x = (ns.getD i default).x ∧
    ((normalize_positions ns).getD i default).x - ((normalize_positions ns).getD j default).x
      = (ns.getD i default).x - (ns.getD j default).x ∧
    ((normalize_positions ns).getD i default).y - ((normalize_positions ns).getD j default).y
      = ((flip_positions ns).getD i default).y - ((flip_positions ns).getD j default).y := by
  have hne : normalize_positions ns = shift_positions (flip_positions ns) := by
    cases ns with
    | nil => simp at hi
    | cons a l => rfl
  have hlen : (flip_positions ns).length = ns.length := by simp [flip_positions]
  have hfl : ∀ k, k < ns.length → (flip_positions ns).getD k default
      = { ns.getD k default with y := flipConst ns - (ns.getD k default).y } := by
    intro k hk; exact lnode_getD_map _ _ _ hk
  have hsh : ∀ k, k < ns.length →
      (shift_positions (flip_positions ns)).getD k default
      = { (flip_positions ns).getD k default with
          x := ((flip_positions ns).getD k default).x + offsetX (flip_positions ns),
          y := ((flip_positions ns).getD k default).y + offsetY (flip_positions ns) } := by
    intro k hk
    exact lnode_getD_map _ _ _ (by rw [hlen]; exact hk)
  refine ⟨by rw [hfl i hi], ?_, ?_⟩
  · rw [hne, hsh i hi, hsh j hj, hfl i hi, hfl j hj]
    simp
  · rw [hne, hsh i hi, hsh j hj]
    simp

/-- Witness for normalize_positions_rigid at a concrete two-node state. -/
theorem normalize_positions_rigid_witness :
    ((flip_positions [⟨1, 2, 3, 4⟩, ⟨5, 6, 7, 8⟩]).getD 0 default).x
      = (([⟨1, 2, 3, 4⟩, ⟨5, 6, 7, 8⟩] : List LNode).getD 0 default).x ∧
    ((normalize_positions [⟨1, 2, 3, 4⟩, ⟨5, 6, 7, 8⟩]).getD 0 default).x
        - ((normalize_positions [⟨1, 2, 3, 4⟩, ⟨5, 6, 7, 8⟩]).getD 1 default).x
      = (([⟨1, 2, 3, 4⟩, ⟨5, 6, 7, 8⟩] : List LNode).getD 0 default).x
        - (([⟨1, 2, 3, 4⟩, ⟨5, 6, 7, 8⟩] : List LNode).getD 1 default).x ∧
    ((normalize_positions [⟨1, 2, 3, 4⟩, ⟨5, 6, 7, 8⟩]).getD 0 default).y
        - ((normalize_positions [⟨1, 2, 3, 4⟩, ⟨5, 6, 7, 8⟩]).getD 1 default).y
      = ((flip_positions [⟨1, 2, 3, 4⟩, ⟨5, 6, 7, 8⟩]).getD 0 default).y
        - ((flip_positions [⟨1, 2, 3, 4⟩, ⟨5, 6, 7, 8⟩]).getD 1 default).y :=
  normalize_positions_rigid [⟨1, 2, 3, 4⟩, ⟨5, 6, 7, 8⟩] 0 1 (by decide) (by decide)

end Scripts

namespace Scripts

theorem shift_member_left_bound {ns : List LNode} {nd : LNode}
    (h : nd ∈ shift_positions ns) : 100 ≤ nd.x - nd.w / 2 ∧ 100 ≤ nd.y - nd.h / 2 := by
  rcases List.mem_map.mp h with ⟨m, hm, rfl⟩
  have hx := minOver_le_of_mem (fun n => n.x - n.w / 2) hm
  have hy := minOver_le_of_mem (fun n => n.y - n.h / 2) hm
  constructor
  · by_cases hc : minOver (fun n => n.x - n.w / 2) ns < 100
    · simp only [offsetX, hc, if_true]
      simp only at hx
      linarith
    · simp only [offsetX, hc, if_false]
      simp only at hx
      push_neg at hc
      linarith
  · by_cases hc : minOver (fun n => n.y - n.h / 2) ns < 100
    · simp only [offsetY, hc, if_true]
      simp only at hy
      linarith
    · simp only [offsetY, hc, if_false]
      simp only at hy
      push_neg at hc
      linarith

/-- C1 (amended): in the scripts pipeline, after get_canvas_bounds has run
normalize_positions, every node's bounding box (center plus or minus half
the size, the box the source's own post-condition check uses) lies within
the canvas: left and top are at least 0 (in fact at least the 100-pixel
padding) and right and bottom are at most the canvas width and height. -/
theorem get_canvas_bounds_contains (ns : List LNode) (nd : LNode)
    (h : nd ∈ (get_canvas_bounds ns).nodes) :
    0 ≤ nd.x - nd.w / 2 ∧ 0 ≤ nd.y - nd.h / 2 ∧
    nd.x + nd.w / 2 ≤ ((get_canvas_bounds ns).canvasWidth : ℚ) ∧
    nd.y + nd.h / 2 ≤ ((get_canvas_bounds ns).canvasHeight : ℚ) := by
  cases ns with
  | nil => simp [get_canvas_bounds] at h
  | cons a l =>
    have hres : get_canvas_bounds (a :: l) =
        ⟨max (pyInt (((normalize_positions (a :: l)).foldl
            (fun b n => max b (n.x + n.w / 2)) 0) + 100)) 1000,
         max (pyInt (((normalize_positions (a :: l)).foldl
            (fun b n => max b (n.y + n.h / 2)) 0) + 100)) 1000,
         normalize_positions (a :: l)⟩ := rfl
    rw [hres] at h ⊢
    simp only at h ⊢
    have hmem : nd ∈ shift_positions (flip_positions (a :: l)) := h
    have hleft := shift_member_left_bound hmem
    have hnorm : nd ∈ normalize_positions (a :: l) := h
    set ns' := normalize_positions (a :: l) with hns'
    have hmx : nd.x + nd.w / 2 ≤ ns'.foldl (fun b n => max b (n.x + n.w / 2)) 0 :=
      le_foldl_max_mem (fun n => n.x + n.w / 2) hnorm 0
    have hmy : nd.y + nd.h / 2 ≤ ns'.foldl (fun b n => max b (n.y + n.h / 2)) 0 :=
      le_foldl_max_mem (fun n => n.y + n.h / 2) hnorm 0
    have hmx0 : (0 : ℚ) ≤ ns'.foldl (fun b n => max b (n.x + n.w / 2)) 0 :=
      le_foldl_max_init (fun n => n.x + n.w / 2) ns' 0
    have hmy0 : (0 : ℚ) ≤ ns'.foldl (fun b n => max b (n.y + n.h / 2)) 0 :=
      le_foldl_max_init (fun n => n.y + n.h / 2) ns' 0
    set MX := ns'.foldl (fun b n => max b (n.x + n.w / 2)) 0 with hMX
    set MY := ns'.foldl (fun b n => max b (n.y + n.h / 2)) 0 with hMY
    have hpx : pyInt (MX + 100) = ⌊MX + 100⌋ := by
      unfold pyInt
      rw [if_pos (by linarith)]
    have hpy : pyInt (MY + 100) = ⌊MY + 100⌋ := by
      unfold pyInt
      rw [if_pos (by linarith)]
    have hfx : MX + 100 - 1 < (⌊MX + 100⌋ : ℚ) := Int.sub_one_lt_floor _
    have hfy : MY + 100 - 1 < (⌊MY + 100⌋ : ℚ) := Int.sub_one_lt_floor _
    refine ⟨by linarith [hleft.1], by linarith [hleft.2], ?_, ?_⟩
    · rw [hpx]
      have hcast : ((max (⌊MX + 100⌋) 1000 : Int) : ℚ) = max ((⌊MX + 100⌋ : Int) : ℚ) 1000 := by
        push_cast
        rfl
      rw [hcast]
      have := le_max_left ((⌊MX + 100⌋ : Int) : ℚ) 1000
      linarith
    · rw [hpy]
      have hcast : ((max (⌊MY + 100⌋) 1000 : Int) : ℚ) = max ((⌊MY + 100⌋ : Int) : ℚ) 1000 := by
        push_cast
        rfl
      rw [hcast]
      have := le_max_left ((⌊MY + 100⌋ : Int) : ℚ) 1000
      linarith

/-- Witness for get_canvas_bounds_contains at a concrete one-node state. -/
theorem get_canvas_bounds_contains_witness :
    (⟨105, 105, 10, 10⟩ : LNode) ∈ (get_canvas_bounds [⟨0, 0, 10, 10⟩]).nodes ∧
    (0 ≤ (105 : ℚ) - 10 / 2 ∧ 0 ≤ (105 : ℚ) - 10 / 2 ∧
     (105 : ℚ) + 10 / 2 ≤ ((get_canvas_bounds [⟨0, 0, 10, 10⟩]).canvasWidth : ℚ) ∧
     (105 : ℚ) + 10 / 2 ≤ ((get_canvas_bounds [⟨0, 0, 10, 10⟩]).canvasHeight : ℚ)) := by
  have hmem : (⟨105, 105, 10, 10⟩ : LNode) ∈ (get_canvas_bounds [⟨0, 0, 10, 10⟩]).nodes := by
    simp [get_canvas_bounds, normalize_positions, shift_positions, flip_positions,
      offsetX, offsetY, minOver, maxOver, flipConst]
    norm_num
  exact ⟨hmem, get_canvas_bounds_contains [⟨0, 0, 10, 10⟩] ⟨105, 105, 10, 10⟩ hmem⟩

end Scripts

theorem range'_append_one (s m n : Nat) :
    List.range' s m ++ List.range' (s + m) n = List.range' s (m + n) := by
  have h := List.range'_append s m n 1
  simp only [one_mul] at h
  rw [Nat.add_comm n m] at h
  exact h

namespace Converter

theorem create_inf_connection_id {conn_id : Nat} {c : CConn}
    {node_map : List (String × Nat)} {nodes_yaml : List CNode} {ic : InfConn}
    (h : create_inf_connection conn_id c node_map nodes_yaml = some ic) :
    ic.id = conn_id := by
  unfold create_inf_connection at h
  split at h
  · cases h; rfl
  · cases h

theorem create_inf_group_id {group_id : Nat} {g : CGroup}
    {node_map : List (String × Nat)} {nodes_yaml : List CNode} {ig : InfGroup}
    (h : create_inf_group group_id g node_map nodes_yaml = some ig) :
    ig.id = group_id := by
  simp only [create_inf_group] at h
  split at h
  · cases h
  · cases h; rfl

theorem buildNodes_spec (l : List CNode) :
    ∀ (acc : List InfNode) (m : List (String × Nat)) (nid : Nat),
    (buildNodes acc m nid l).1.map (·.id) = acc.map (·.id) ++ List.range' nid l.length ∧
    (buildNodes acc m nid l).2.2 = nid + l.length := by
  induction l with
  | nil => intro acc m nid; simp [buildNodes]
  | cons n rest ih =>
    intro acc m nid
    rw [buildNodes]
    obtain ⟨h1, h2⟩ := ih (acc ++ [create_inf_node nid n]) ((n.text, nid) :: m) (nid + 1)
    constructor
    · rw [h1]
      simp only [List.length_cons]
      rw [List.range'_succ]
      simp [create_inf_node]
    · rw [h2]
      simp only [List.length_cons]
      omega

theorem buildConnections_spec (m : List (String × Nat)) (ny : List CNode)
    (l : List CConn) : ∀ (acc : List InfConn) (nid : Nat),
    ∃ k, (buildConnections m ny acc nid l).1.map (·.id)
            = acc.map (·.id) ++ List.range' nid k ∧
         (buildConnections m ny acc nid l).2 = nid + k := by
  induction l with
  | nil => intro acc nid; exact ⟨0, by simp [buildConnections]⟩
  | cons c rest ih =>
    intro acc nid
    cases hcc : create_inf_connection nid c m ny with
    | none =>
      obtain ⟨k, h1, h2⟩ := ih acc nid
      refine ⟨k, ?_, ?_⟩
      · simp only [buildConnections, hcc]
        exact h1
      · simp only [buildConnections, hcc]
        exact h2
    | some ic =>
      obtain ⟨k, h1, h2⟩ := ih (acc ++ [ic]) (nid + 1)
      refine ⟨k + 1, ?_, ?_⟩
      · simp only [buildConnections, hcc]
        rw [h1, List.range'_succ]
        simp [create_inf_connection_id hcc]
      · simp only [buildConnections, hcc]
        rw [h2]
        omega

theorem buildGroups_spec (m : List (String × Nat)) (ny : List CNode)
    (l : List CGroup) : ∀ (acc : List InfGroup) (nid : Nat),
    ∃ k, (buildGroups m ny acc nid l).1.map (·.id)
            = acc.map (·.id) ++ List.range' nid k ∧
         (buildGroups m ny acc nid l).2 = nid + k := by
  induction l with
  | nil => intro acc nid; exact ⟨0, by simp [buildGroups]⟩
  | cons g rest ih =>
    intro acc nid
    cases hgg : create_inf_group nid g m ny with
    | none =>
      obtain ⟨k, h1, h2⟩ := ih acc nid
      refine ⟨k, ?_, ?_⟩
      · simp only [buildGroups, hgg]
        exact h1
      · simp only [buildGroups, hgg]
        exact h2
    | some ig =>
      obtain ⟨k, h1, h2⟩ := ih (acc ++ [ig]) (nid + 1)
      refine ⟨k + 1, ?_, ?_⟩
      · simp only [buildGroups, hgg]
        rw [h1, List.range'_succ]
        simp [create_inf_group_id hgg]
      · simp only [buildGroups, hgg]
        rw [h2]
        omega

/-- C2: identifier allocation is monotonic across nodes, then connections,
then groups: node ids are 1..N in declaration order, the ids of all emitted
entities are exactly the contiguous range 1..(nextId - 1) (hence distinct
and positive, with no gaps even when a connection or group is dropped during
resolution), and nextId is one past the highest allocated id. -/
theorem convert_allocates_contiguous_ids (d : CDoc) (s : Inf)
    (h : convert_yaml_to_inf d = some s) :
    s.nodes.map (·.id) = List.range' 1 d.nodes.length ∧
    allIds s = List.range' 1 ((allIds s).length) ∧
    s.nextId = (allIds s).length + 1 := by
  simp only [convert_yaml_to_inf] at h
  split at h
  · cases h
  · cases h
    simp only [allIds]
    obtain ⟨hn1, hn2⟩ := buildNodes_spec d.nodes [] [] 1
    simp only [List.map_nil, List.nil_append] at hn1
    obtain ⟨k2, hc1, hc2⟩ := buildConnections_spec (buildNodes [] [] 1 d.nodes).2.1
      d.nodes d.connections [] (buildNodes [] [] 1 d.nodes).2.2
    simp only [List.map_nil, List.nil_append] at hc1
    obtain ⟨k3, hg1, hg2⟩ := buildGroups_spec (buildNodes [] [] 1 d.nodes).2.1
      d.nodes d.groups []
      (buildConnections (buildNodes [] [] 1 d.nodes).2.1 d.nodes []
        (buildNodes [] [] 1 d.nodes).2.2 d.connections).2
    simp only [List.map_nil, List.nil_append] at hg1
    rw [hn2] at hc1 hc2 hg1 hg2 ⊢
    rw [hc2] at hg1 hg2 ⊢
    refine ⟨hn1, ?_, ?_⟩
    · rw [hn1, hc1, hg1]
      rw [range'_append_one 1 d.nodes.length k2]
      have e : 1 + d.nodes.length + k2 = 1 + (d.nodes.length + k2) := by omega
      rw [e, range'_append_one 1 (d.nodes.length + k2) k3]
      simp [List.length_range']
    · rw [hg2, hn1, hc1, hg1]
      simp only [List.length_append, List.length_range']
      omega

end Converter

namespace Converter

/-- Witness for convert_allocates_contiguous_ids on a document with one
dropped connection (unresolvable endpoint) and one group with a dropped
member: ids stay contiguous. -/
theorem convert_allocates_contiguous_ids_witness :
    (convert_yaml_to_inf
        { nodes := [{ text := "A" }, { text := "B" }],
          connections := [{ fromRef := .str "A", toRef := .str "B" },
                          { fromRef := .str "A", toRef := .str "C" }],
          groups := [{ name := "G", nodes := [.str "A", .str "Z", .str "B"] }] }).getD
        { version := "", nodes := [], connections := [], groups := [], nextId := 0 }
      = { version := "2.5",
          nodes := [{ id := 1, ntype := "rectangle", text := "A", textAlign := "center" },
                    { id := 2, ntype := "rectangle", text := "B", textAlign := "center" }],
          connections := [{ id := 3, fromId := 1, toId := 2, directed := true }],
          groups := [{ id := 4, name := "G", nodeIds := [1, 2] }],
          nextId := 5 } ∧
    ((convert_yaml_to_inf
        { nodes := [{ text := "A" }, { text := "B" }],
          connections := [{ fromRef := .str "A", toRef := .str "B" },
                          { fromRef := .str "A", toRef := .str "C" }],
          groups := [{ name := "G", nodes := [.str "A", .str "Z", .str "B"] }] }).getD
        { version := "", nodes := [], connections := [], groups := [], nextId := 0 }).nodes.map (·.id)
      = List.range' 1 2 ∧
    allIds ((convert_yaml_to_inf
        { nodes := [{ text := "A" }, { text := "B" }],
          connections := [{ fromRef := .str "A", toRef := .str "B" },
                          { fromRef := .str "A", toRef := .str "C" }],
          groups := [{ name := "G", nodes := [.str "A", .str "Z", .str "B"] }] }).getD
        { version := "", nodes := [], connections := [], groups := [], nextId := 0 })
      = List.range' 1 4 ∧
    ((convert_yaml_to_inf
        { nodes := [{ text := "A" }, { text := "B" }],
          connections := [{ fromRef := .str "A", toRef := .str "B" },
                          { fromRef := .str "A", toRef := .str "C" }],
          groups := [{ name := "G", nodes := [.str "A", .str "Z", .str "B"] }] }).getD
        { version := "", nodes := [], connections := [], groups := [], nextId := 0 }).nextId = 5 := by
  refine ⟨rfl, ?_⟩
  have h := convert_allocates_contiguous_ids
    { nodes := [{ text := "A" }, { text := "B" }],
      connections := [{ fromRef := .str "A", toRef := .str "B" },
                      { fromRef := .str "A", toRef := .str "C" }],
      groups := [{ name := "G", nodes := [.str "A", .str "Z", .str "B"] }] }
    ((convert_yaml_to_inf
        { nodes := [{ text := "A" }, { text := "B" }],
          connections := [{ fromRef := .str "A", toRef := .str "B" },
                          { fromRef := .str "A", toRef := .str "C" }],
          groups := [{ name := "G", nodes := [.str "A", .str "Z", .str "B"] }] }).getD
        { version := "", nodes := [], connections := [], groups := [], nextId := 0 }) rfl
  exact ⟨h.1, h.2.1, h.2.2⟩

/-- C3: converting the minimal document with nodes A and B and one
connection from A to B yields exactly 2 nodes, exactly 1 connection with
fromId 1 and toId 2 (the node ids in declaration order), and nextId 4. -/
theorem convert_minimal_two_node_doc :
    (convert_yaml_to_inf
        { nodes := [{ text := "A" }, { text := "B" }],
          connections := [{ fromRef := .str "A", toRef := .str "B" }] }).map
      (fun s => (s.nodes.length, s.connections.map (fun c => (c.fromId, c.toId)),
                 s.nextId))
      = some (2, [(1, 2)], 4) := rfl

/-- C7 (counterexample): tools/converter.py performs no self-connection
check: a document whose only connection goes from node A to node A converts
successfully, and the emitted scene contains the self-edge (fromId = toId =
1) with no error of any kind. -/
theorem converter_emits_self_edge :
    (convert_yaml_to_inf
        { nodes := [{ text := "A" }, { text := "B" }],
          connections := [{ fromRef := .str "A", toRef := .str "A" }] }).map
      (fun s => s.connections)
      = some [{ id := 3, fromId := 1, toId := 1, directed := true }] := rfl

/-- C8 (counterexample): the tools pipeline performs no duplicate-text
validation: a document with two nodes of identical text converts
successfully into a two-node scene instead of being rejected (and
tools/yaml2inf.py then proceeds to invoke the layout engine on it). -/
theorem converter_accepts_duplicate_texts :
    (convert_yaml_to_inf { nodes := [{ text := "A" }, { text := "A" }] }).map
      (fun s => s.nodes.length) = some 2 := rfl

theorem resolve_int_eq_resolve_text (nodes : List CNode) (m : List (String × Nat))
    (i : Nat) (hi : i < nodes.length) :
    resolve_node_id nodes m (.int (Int.ofNat i))
      = resolve_node_id nodes m (.str (nodes.get ⟨i, hi⟩).text) := by
  simp only [resolve_node_id]
  rw [if_pos (show (0 : Int) ≤ Int.ofNat i from Int.ofNat_nonneg i)]
  show (match nodes.get? i with
        | some nd => List.lookup nd.text m
        | none => none) = List.lookup (nodes.get ⟨i, hi⟩).text m
  rw [List.get?_eq_get hi]

theorem create_conn_int_text (nodes : List CNode) (m : List (String × Nat))
    (c : CConn) (i : Nat) (hi : i < nodes.length) (hf : c.fromRef = .int (Int.ofNat i))
    (nid : Nat) :
    create_inf_connection nid { c with fromRef := .str (nodes.get ⟨i, hi⟩).text } m nodes
      = create_inf_connection nid c m nodes := by
  simp only [create_inf_connection, hf]
  rw [← resolve_int_eq_resolve_text nodes m i hi]

theorem buildConnections_congr_mid (m : List (String × Nat)) (ny : List CNode)
    (c c' : CConn)
    (hstep : ∀ nid, create_inf_connection nid c' m ny = create_inf_connection nid c m ny)
    (pre post : List CConn) : ∀ (acc : List InfConn) (nid : Nat),
    buildConnections m ny acc nid (pre ++ c' :: post)
      = buildConnections m ny acc nid (pre ++ c :: post) := by
  induction pre with
  | nil =>
    intro acc nid
    simp only [List.nil_append, buildConnections, hstep nid]
  | cons p rest ih =>
    intro acc nid
    simp only [List.cons_append]
    cases hp : create_inf_connection nid p m ny with
    | none =>
      simp only [buildConnections, hp]
      exact ih acc nid
    | some ic =>
      simp only [buildConnections, hp]
      exact ih (acc ++ [ic]) (nid + 1)

/-- C6 (amended): in the tools/converter.py resolver (the same code appears
in tools/yaml2inf.py), an in-range integer index reference and the literal
text of the indexed node are interchangeable: rewriting one connection's
integer reference i into the text of node i yields an identical scene.  The
scripts/yaml_convert.py validator, by contrast, accepts only string
references (an integer from/to is a schema error there). -/
theorem index_and_text_refs_interchangeable (d : CDoc) (pre post : List CConn)
    (c : CConn) (i : Nat) (hi : i < d.nodes.length)
    (hc : d.connections = pre ++ c :: post)
    (hf : c.fromRef = .int (Int.ofNat i)) :
    convert_yaml_to_inf { d with connections :=
        pre ++ { c with fromRef := .str (d.nodes.get ⟨i, hi⟩).text } :: post }
      = convert_yaml_to_inf d := by
  simp only [convert_yaml_to_inf]
  by_cases hnil : d.nodes = []
  · simp [hnil]
  · rw [if_neg hnil, if_neg hnil, hc]
    rw [buildConnections_congr_mid _ _ c _
      (fun nid => create_conn_int_text d.nodes _ c i hi hf nid) pre post]

/-- Witness for index_and_text_refs_interchangeable at a concrete two-node
document. -/
theorem index_and_text_refs_interchangeable_witness :
    convert_yaml_to_inf
        { nodes := [{ text := "A" }, { text := "B" }],
          connections := [{ fromRef := .str "A", toRef := .str "B" }] }
      = convert_yaml_to_inf
          { nodes := [{ text := "A" }, { text := "B" }],
            connections := [{ fromRef := .int (Int.ofNat 0), toRef := .str "B" }] } :=
  index_and_text_refs_interchangeable
    { nodes := [{ text := "A" }, { text := "B" }],
      connections := [{ fromRef := .int (Int.ofNat 0), toRef := .str "B" }] }
    [] [] { fromRef := .int (Int.ofNat 0), toRef := .str "B" } 0 (by decide) rfl rfl

end Converter

namespace Graphviz

/-- C1 (counterexample): in the tools/graphviz.py path the canvas is sized
from the unscaled engine positions while node positions are scaled by 4/3,
so a produced scene can place nodes outside the canvas.  With two
one-character rectangle nodes at engine positions (0, 0) and (0, 3000) the
emitted scene has canvasHeight 3280, the first node's box runs from y =
3340 to 3420 > 3280 (bottom > canvasHeight), and the second node's top edge
is y = -660 < 0. -/
theorem apply_layout_emits_out_of_bounds_node :
    (apply_layout [{ text := ['A'] }, { text := ['B'] }]
        [(['A'], 0, 0), (['B'], 0, 3000)]).canvasHeight = 3280 ∧
    (apply_layout [{ text := ['A'] }, { text := ['B'] }]
        [(['A'], 0, 0), (['B'], 0, 3000)]).nodes.map (fun n => (n.y, n.height))
      = [(3340, 80), (-660, 80)] ∧
    ((apply_layout [{ text := ['A'] }, { text := ['B'] }]
        [(['A'], 0, 0), (['B'], 0, 3000)]).nodes.map (fun n => n.y)).getD 1 0 < 0 := by
  have hA : calculate_text_dimensions ['A'] "rectangle" = (120, 80) := by
    simp [calculate_text_dimensions, splitLines, splitOnChar, maxLineLenOf]
    norm_num
  have hB : calculate_text_dimensions ['B'] "rectangle" = (120, 80) := by
    simp [calculate_text_dimensions, splitLines, splitOnChar, maxLineLenOf]
    norm_num
  have hcb : calculate_canvas_bounds [(['A'], 0, 0), (['B'], 0, 3000)]
      [{ text := ['A'] }, { text := ['B'] }] = (1000, 3280) := by
    simp [calculate_canvas_bounds, List.filterMap, List.find?, hA, hB,
      qListMin, qListMax, pyInt]
    simp only [if_neg (by decide : ¬ ("rectangle" : String) = "table")]
    norm_num
  have hgeo : (apply_layout [{ text := ['A'] }, { text := ['B'] }]
      [(['A'], 0, 0), (['B'], 0, 3000)]) =
      { nodes := [{ text := ['A'], ntype := "rectangle", x := 40, y := 3340,
                    width := 120, height := 80 },
                  { text := ['B'], ntype := "rectangle", x := 40, y := -660,
                    width := 120, height := 80 }],
        canvasWidth := 1000, canvasHeight := 3280 } := by
    simp [apply_layout, List.find?, graphviz_to_inf_coords, pyInt, hA, hB,
      -Prod.mk_zero_zero]
    simp only [hcb]
    simp only [if_neg (by decide : ¬ ("rectangle" : String) = "table"),
      if_neg (by decide : ¬ ("rectangle" : String) = "circle")]
    norm_num
  rw [hgeo]
  refine ⟨rfl, rfl, by norm_num⟩

/-- C4 (counterexample): the tools/graphviz.py size estimator does not
report (2 * radius, 2 * radius) for circles: for the one-character text "A"
it returns (50, 50), although with this module's constants (minRadius 50,
charWidth 8, lineHeight 18) the claimed formula gives radius 50 and thus
predicts the reported size (100, 100); its radius formula also adds the
20-pixel padding the claim omits. -/
theorem circle_size_not_double_radius :
    SpecFormula.specCircleRadius 50 8 18 ['A'] = 50 ∧
    calculate_text_dimensions ['A'] "circle" = (50, 50) ∧
    calculate_text_dimensions ['A'] "circle"
      ≠ (2 * SpecFormula.specCircleRadius 50 8 18 ['A'],
         2 * SpecFormula.specCircleRadius 50 8 18 ['A']) := by
  refine ⟨?_, ?_, ?_⟩ <;>
    simp [SpecFormula.specCircleRadius, calculate_text_dimensions, splitLines,
      splitOnChar, maxLineLenOf, Prod.ext_iff] <;>
    norm_num

end Graphviz

namespace Scripts

theorem splitOnChar_ne_nil (sep : Char) (s : Str) : splitOnChar sep s ≠ [] := by
  cases s with
  | nil => simp [splitOnChar]
  | cons c rest =>
    simp only [splitOnChar]
    cases h : splitOnChar sep rest with
    | nil => simp
    | cons l ls => by_cases hc : c = sep <;> simp [hc]

/-- C4 (amended): the scripts/yaml_convert.py size estimator
(GraphvizLayoutEngine.calculate_node_size, whose result compute_layout
stores scaled back to pixels) realizes the claimed circle rule with
minRadius 60, charWidth 8 and lineHeight 20: the stored size of every
circle node is exactly (2 * radius, 2 * radius) with
radius = max(60, max(maxLineLength * 8, lineCount * 20) / 2). -/
theorem circle_size_is_double_radius (t tb : Str) :
    node_size_px { text := t, ntype := "circle", table := tb }
      = (2 * SpecFormula.specCircleRadius 60 8 20 t,
         2 * SpecFormula.specCircleRadius 60 8 20 t) := by
  have hne : splitLines t ≠ [] := splitOnChar_ne_nil '\n' t
  have key : ∀ L n : ℚ, max (L / 2) (n / 2) = max L n / 2 := by
    intro L n
    rcases le_total L n with h | h
    · rw [max_eq_right h, max_eq_right (by linarith)]
    · rw [max_eq_left h, max_eq_left (by linarith)]
  simp only [node_size_px, calculate_node_size, SpecFormula.specCircleRadius]
  norm_num [hne, key]
  rw [if_neg (by decide : ¬ ("circle" : String) = "table")]
  simp only [Prod.mk.injEq]
  constructor <;> ring

end Scripts

namespace Scripts

theorem requiredCellWidth_mono {s t : Str}
    (h : maxLineLenOf (splitLines s) ≤ maxLineLenOf (splitLines t)) :
    requiredCellWidth s ≤ requiredCellWidth t := by
  unfold requiredCellWidth pyInt
  have hq : ((maxLineLenOf (splitLines s) : ℚ)) ≤ (maxLineLenOf (splitLines t) : ℚ) :=
    Nat.cast_le.mpr h
  have ha : (0 : ℚ) ≤ (maxLineLenOf (splitLines s) : ℚ) * (42 / 5) + 20 := by positivity
  have hb : (0 : ℚ) ≤ (maxLineLenOf (splitLines t) : ℚ) * (42 / 5) + 20 := by positivity
  rw [if_pos ha, if_pos hb]
  exact Int.floor_le_floor (by nlinarith)

theorem requiredCellHeight_mono {s t : Str}
    (h : (splitLines s).length ≤ (splitLines t).length) :
    requiredCellHeight s ≤ requiredCellHeight t := by
  unfold requiredCellHeight
  omega

theorem widthStep_mono_acc (c : Nat) (row : List Cell) {b b' : Int} (hb : b ≤ b') :
    widthStep c b row ≤ widthStep c b' row := by
  unfold widthStep
  cases row.get? c with
  | none => exact hb
  | some cl =>
    by_cases he : cl.text = []
    · simpa [he] using hb
    · simp only [he, if_false]
      exact max_le_max hb le_rfl

theorem heightStep_mono_acc (row : List Cell) (k : Nat) {b b' : Int} (hb : b ≤ b') :
    heightStep row b k ≤ heightStep row b' k := by
  unfold heightStep
  cases row.get? k with
  | none => exact hb
  | some cl =>
    by_cases he : cl.text = []
    · simpa [he] using hb
    · simp only [he, if_false]
      exact max_le_max hb le_rfl

theorem widthStep_mono_cell (c cIdx : Nat) (row : List Cell) (cell : Cell) (t' : Str)
    (h2 : row.get? c = some cell)
    (hw : requiredCellWidth cell.text ≤ requiredCellWidth t')
    (hne : cell.text ≠ [] → t' ≠ [])
    {b b' : Int} (hb : b ≤ b') :
    widthStep cIdx b row ≤ widthStep cIdx b' (row.set c { cell with text := t' }) := by
  by_cases hc : cIdx = c
  · subst hc
    have hlt : cIdx < row.length := by
      by_contra hge
      push_neg at hge
      rw [List.get?_eq_none.mpr hge] at h2
      cases h2
    unfold widthStep
    rw [h2, List.get?_set_eq_of_lt _ hlt]
    by_cases he : cell.text = []
    · by_cases ht : t' = [] <;> simp only [he, ht, if_true, if_false]
      · exact hb
      · exact le_trans hb (le_max_left _ _)
    · have ht := hne he
      simp only [he, ht, if_false]
      exact max_le_max hb hw
  · unfold widthStep
    rw [List.get?_set_ne _ _ (Ne.symm hc)]
    cases row.get? cIdx with
    | none => exact hb
    | some cl =>
      by_cases he : cl.text = []
      · simpa [he] using hb
      · simp only [he, if_false]
        exact max_le_max hb le_rfl

theorem heightStep_mono_cell (c : Nat) (row : List Cell) (cell : Cell) (t' : Str)
    (h2 : row.get? c = some cell)
    (hh : requiredCellHeight cell.text ≤ requiredCellHeight t')
    (hne : cell.text ≠ [] → t' ≠ [])
    {b b' : Int} (hb : b ≤ b') (k : Nat) :
    heightStep row b k ≤ heightStep (row.set c { cell with text := t' }) b' k := by
  by_cases hc : k = c
  · subst hc
    have hlt : k < row.length := by
      by_contra hge
      push_neg at hge
      rw [List.get?_eq_none.mpr hge] at h2
      cases h2
    unfold heightStep
    rw [h2, List.get?_set_eq_of_lt _ hlt]
    by_cases he : cell.text = []
    · by_cases ht : t' = [] <;> simp only [he, ht, if_true, if_false]
      · exact hb
      · exact le_trans hb (le_max_left _ _)
    · have ht := hne he
      simp only [he, ht, if_false]
      exact max_le_max hb hh
  · unfold heightStep
    rw [List.get?_set_ne _ _ (Ne.symm hc)]
    cases row.get? k with
    | none => exact hb
    | some cl =>
      by_cases he : cl.text = []
      · simpa [he] using hb
      · simp only [he, if_false]
        exact max_le_max hb le_rfl

theorem foldl_mono_forall2 {α : Type} {f g : Int → α → Int}
    {l l' : List α}
    (h : List.Forall₂ (fun x y => ∀ b b' : Int, b ≤ b' → f b x ≤ g b' y) l l') :
    ∀ {a a' : Int}, a ≤ a' → l.foldl f a ≤ l'.foldl g a' := by
  induction h with
  | nil => intro a a' ha; simpa using ha
  | cons hxy htail ih =>
    intro a a' ha
    simp only [List.foldl_cons]
    exact ih (hxy _ _ ha)

theorem forall2_set_of {α : Type} (R : α → α → Prop) :
    ∀ (l : List α) (r : Nat) (y : α), (∀ x ∈ l, R x x) →
      (∀ x, l.get? r = some x → R x y) → List.Forall₂ R l (l.set r y) := by
  intro l
  induction l with
  | nil =>
    intro r y _ _
    simp only [List.set_nil]
    exact List.Forall₂.nil
  | cons x rest ih =>
    intro r y hrefl hset
    cases r with
    | zero =>
      simp only [List.set]
      exact List.Forall₂.cons (hset x rfl)
        (List.forall₂_same.mpr (fun z hz => hrefl z (List.mem_cons_of_mem x hz)))
    | succ r' =>
      simp only [List.set]
      exact List.Forall₂.cons (hrefl x (List.mem_cons_self x rest))
        (ih r' y (fun z hz => hrefl z (List.mem_cons_of_mem x hz))
          (fun z hz => hset z (by simpa using hz)))

theorem colWidthFold_mono (cells : List (List Cell)) (r c : Nat)
    (row : List Cell) (cell : Cell) (t' : Str)
    (h1 : cells.get? r = some row) (h2 : row.get? c = some cell)
    (hw : requiredCellWidth cell.text ≤ requiredCellWidth t')
    (hne : cell.text ≠ [] → t' ≠ []) (cIdx : Nat) :
    colWidthFold cells cIdx
      ≤ colWidthFold (cells.set r (row.set c { cell with text := t' })) cIdx := by
  unfold colWidthFold
  refine foldl_mono_forall2 ?_ le_rfl
  refine forall2_set_of _ cells r _ ?_ ?_
  · intro x _ b b' hb
    exact widthStep_mono_acc cIdx x hb
  · intro x hx b b' hb
    have hxr : x = row := by
      rw [h1] at hx
      cases hx
      rfl
    subst hxr
    exact widthStep_mono_cell c cIdx x cell t' h2 hw hne hb

theorem rowHeightFold_mono (cols c : Nat) (row : List Cell) (cell : Cell) (t' : Str)
    (h2 : row.get? c = some cell)
    (hh : requiredCellHeight cell.text ≤ requiredCellHeight t')
    (hne : cell.text ≠ [] → t' ≠ []) :
    rowHeightFold cols row ≤ rowHeightFold cols (row.set c { cell with text := t' }) := by
  unfold rowHeightFold
  refine foldl_mono_forall2 ?_ le_rfl
  refine List.forall₂_same.mpr ?_
  intro k _ b b' hb
  exact heightStep_mono_cell c row cell t' h2 hh hne hb k

theorem getD_map_range (f : Nat → Int) (L c : Nat) :
    ((List.range L).map f).getD c 0 = if c < L then f c else 0 := by
  by_cases h : c < L
  · have : ((List.range L).map f).get? c = some (f c) := by
      rw [List.get?_map, List.get?_range h]
      rfl
    simp [List.getD, this, h]
  · have hnone : (List.range L)[c]? = none := by
      rw [List.getElem?_eq_none]
      simpa using le_of_not_lt h
    simp [List.getD, hnone, h]

end Scripts

namespace Scripts

theorem getD_map_of_get? {α : Type} (f : α → Int) {l : List α} {n : Nat} {x : α}
    (h : l.get? n = some x) : (l.map f).getD n 0 = f x := by
  have hx : l[n]? = some x := by
    rw [← List.get?_eq_getElem?]
    exact h
  simp [List.getD, List.getElem?_map, hx]

/-- C5: table size estimation is monotonic.  Replacing the text of the
single cell at (r, c) by a text whose maximal line length and line count
are no smaller (which is what lengthening a line or adding lines does), and
which stays non-empty if the old text was non-empty, never decreases the
computed width of that cell's column or the computed height of that cell's
row. -/
theorem table_dimensions_monotone (cells : List (List Cell)) (r c : Nat)
    (row : List Cell) (cell : Cell) (t' : Str)
    (h1 : cells.get? r = some row) (h2 : row.get? c = some cell)
    (hml : maxLineLenOf (splitLines cell.text) ≤ maxLineLenOf (splitLines t'))
    (hlc : (splitLines cell.text).length ≤ (splitLines t').length)
    (hne : cell.text ≠ [] → t' ≠ []) :
    (calculate_table_dimensions cells).1.getD c 0
      ≤ (calculate_table_dimensions
          (cells.set r (row.set c { cell with text := t' }))).1.getD c 0 ∧
    (calculate_table_dimensions cells).2.getD r 0
      ≤ (calculate_table_dimensions
          (cells.set r (row.set c { cell with text := t' }))).2.getD r 0 := by
  have hw := requiredCellWidth_mono hml
  have hh := requiredCellHeight_mono hlc
  have hcb : c < row.length := by
    by_contra hge
    push_neg at hge
    rw [List.get?_eq_none.mpr hge] at h2
    cases h2
  cases cells with
  | nil => cases h1
  | cons row0 rest =>
    cases r with
    | zero =>
      have hrow : row0 = row := by
        have := h1
        simp only [List.get?_cons_zero, Option.some.injEq] at this
        exact this
      subst hrow
      have hnl : (row0.set c { cell with text := t' }).length = row0.length :=
        List.length_set row0 c _
      have h0 : ¬ row0.length = 0 := by omega
      have h0' : ¬ (row0.set c { cell with text := t' }).length = 0 := by
        rw [hnl]
        exact h0
      simp only [calculate_table_dimensions, List.set]
      rw [if_neg h0, if_neg h0', hnl]
      constructor
      · rw [getD_map_range, getD_map_range]
        by_cases hcL : c < row0.length
        · rw [if_pos hcL, if_pos hcL]
          exact colWidthFold_mono (row0 :: rest) 0 c row0 cell t' (by simp) h2 hw hne c
        · rw [if_neg hcL, if_neg hcL]
      · have e1 : ((row0 :: rest).map (rowHeightFold row0.length)).getD 0 0
            = rowHeightFold row0.length row0 := getD_map_of_get? _ (by simp)
        have e2 : (((row0.set c { cell with text := t' }) :: rest).map
              (rowHeightFold row0.length)).getD 0 0
            = rowHeightFold row0.length (row0.set c { cell with text := t' }) :=
          getD_map_of_get? _ (by simp)
        rw [e1, e2]
        exact rowHeightFold_mono row0.length c row0 cell t' h2 hh hne
    | succ r' =>
      have h1' : rest.get? r' = some row := by
        simpa using h1
      have hr' : r' < rest.length := by
        by_contra hge
        push_neg at hge
        rw [List.get?_eq_none.mpr hge] at h1'
        cases h1'
      simp only [calculate_table_dimensions, List.set]
      by_cases h0 : row0.length = 0
      · rw [if_pos h0, if_pos h0]
        exact ⟨le_rfl, le_rfl⟩
      · rw [if_neg h0, if_neg h0]
        constructor
        · rw [getD_map_range, getD_map_range]
          by_cases hcL : c < row0.length
          · rw [if_pos hcL, if_pos hcL]
            have hmain := colWidthFold_mono (row0 :: rest) (r' + 1) c row cell t'
              h1 h2 hw hne c
            simpa [List.set] using hmain
          · rw [if_neg hcL, if_neg hcL]
        · have e1 : ((row0 :: rest).map (rowHeightFold row0.length)).getD (r' + 1) 0
              = rowHeightFold row0.length row := by
            refine getD_map_of_get? _ ?_
            simpa using h1'
          have hset : (rest.set r' (row.set c { cell with text := t' })).get? r'
              = some (row.set c { cell with text := t' }) :=
            List.get?_set_eq_of_lt _ hr'
          have e2 : ((row0 :: rest.set r' (row.set c { cell with text := t' })).map
                (rowHeightFold row0.length)).getD (r' + 1) 0
              = rowHeightFold row0.length (row.set c { cell with text := t' }) := by
            refine getD_map_of_get? _ ?_
            simpa using hset
          rw [e1, e2]
          exact rowHeightFold_mono row0.length c row cell t' h2 hh hne

/-- Witness for table_dimensions_monotone: lengthening the (0,0) cell text
of a concrete 2 by 2 table. -/
theorem table_dimensions_monotone_witness :
    (calculate_table_dimensions
        [[{ text := ['a'], textAlign := "left" }, { text := ['b'], textAlign := "left" }],
         [{ text := ['c'], textAlign := "left" }, { text := ['d'], textAlign := "left" }]]).1.getD 0 0
      ≤ (calculate_table_dimensions
          ([[{ text := ['a'], textAlign := "left" }, { text := ['b'], textAlign := "left" }],
            [{ text := ['c'], textAlign := "left" }, { text := ['d'], textAlign := "left" }]].set 0
            ([{ text := ['a'], textAlign := "left" }, { text := ['b'], textAlign := "left" }].set 0
              { ({ text := ['a'], textAlign := "left" } : Cell) with
                  text := ['a', 'a', 'a'] }))).1.getD 0 0 ∧
    (calculate_table_dimensions
        [[{ text := ['a'], textAlign := "left" }, { text := ['b'], textAlign := "left" }],
         [{ text := ['c'], textAlign := "left" }, { text := ['d'], textAlign := "left" }]]).2.getD 0 0
      ≤ (calculate_table_dimensions
          ([[{ text := ['a'], textAlign := "left" }, { text := ['b'], textAlign := "left" }],
            [{ text := ['c'], textAlign := "left" }, { text := ['d'], textAlign := "left" }]].set 0
            ([{ text := ['a'], textAlign := "left" }, { text := ['b'], textAlign := "left" }].set 0
              { ({ text := ['a'], textAlign := "left" } : Cell) with
                  text := ['a', 'a', 'a'] }))).2.getD 0 0 :=
  table_dimensions_monotone
    [[{ text := ['a'], textAlign := "left" }, { text := ['b'], textAlign := "left" }],
     [{ text := ['c'], textAlign := "left" }, { text := ['d'], textAlign := "left" }]]
    0 0
    [{ text := ['a'], textAlign := "left" }, { text := ['b'], textAlign := "left" }]
    { text := ['a'], textAlign := "left" } ['a', 'a', 'a']
    rfl rfl (by decide) (by decide) (by decide)

end Scripts

namespace Scripts

/-- C6 (counterexample): the scripts/yaml_convert.py pipeline does not
accept index-based references: the document with nodes A, B and the
connection written as from: 0, to: "B" is rejected before layout with a
from-must-be-a-string schema error, while the same document written with
from: "A" passes validation and reaches the layout stage.  The two
reference styles are therefore not interchangeable in this pipeline. -/
theorem scripts_rejects_index_reference :
    convert_single_file_stage (.dict
        [("nodes", .list [.dict [("text", .str "A".toList)],
                          .dict [("text", .str "B".toList)]]),
         ("connections", .list [.dict [("from", .int 0), ("to", .str "B".toList)]])])
      = .rejectedBeforeLayout ∧
    VErr.fromNotString 0 ∈ (validate (.dict
        [("nodes", .list [.dict [("text", .str "A".toList)],
                          .dict [("text", .str "B".toList)]]),
         ("connections", .list [.dict [("from", .int 0), ("to", .str "B".toList)]])])).errors ∧
    convert_single_file_stage (.dict
        [("nodes", .list [.dict [("text", .str "A".toList)],
                          .dict [("text", .str "B".toList)]]),
         ("connections", .list [.dict [("from", .str "A".toList), ("to", .str "B".toList)]])])
      = .layoutAttempted := by
  refine ⟨by decide, List.Mem.head _, by decide⟩

/-- C9 (counterexample): validation stops at the missing nodes key: the
document whose root only binds connections to a non-list reports exactly
the missing-nodes error and not the connections-must-be-a-list defect that
the same validator reports once a nodes list is present.  A single pass
therefore does not report every schema defect. -/
theorem validate_stops_at_missing_nodes :
    (validate (.dict [("connections", .int 5)])).errors = [.missingNodes] ∧
    VErr.connectionsNotList ∉ (validate (.dict [("connections", .int 5)])).errors ∧
    (validate (.dict [("nodes", .list []), ("connections", .int 5)])).errors
      = [.connectionsNotList] := by
  refine ⟨rfl, fun h => VErr.noConfusion (List.mem_singleton.mp h), rfl⟩

end Scripts

namespace Scripts

theorem errExt_refl (st : VState) : ∃ l, st.errors = st.errors ++ l :=
  ⟨[], by simp⟩

theorem errExt_trans {a b c : VState} (h1 : ∃ l, b.errors = a.errors ++ l)
    (h2 : ∃ l, c.errors = b.errors ++ l) : ∃ l, c.errors = a.errors ++ l := by
  obtain ⟨l1, e1⟩ := h1
  obtain ⟨l2, e2⟩ := h2
  exact ⟨l1 ++ l2, by rw [e2, e1, List.append_assoc]⟩

theorem errExt_addError (st : VState) (e : VErr) :
    ∃ l, (addError st e).errors = st.errors ++ l :=
  ⟨[e], rfl⟩

theorem errExt_addWarning (st : VState) (w : VWarn) :
    ∃ l, (addWarning st w).errors = st.errors ++ l :=
  ⟨[], by simp [addWarning]⟩

theorem mem_errors_mono {a b : VState} {e : VErr} (h : ∃ l, b.errors = a.errors ++ l)
    (he : e ∈ a.errors) : e ∈ b.errors := by
  obtain ⟨l, hl⟩ := h
  rw [hl]
  exact List.mem_append_left l he

theorem check_unknown_keys_errExt (valid : List String) (mk : String → VErr) :
    ∀ (kvs : List (String × YVal)) (st : VState),
    ∃ l, (check_unknown_keys valid mk st kvs).errors = st.errors ++ l := by
  intro kvs
  induction kvs with
  | nil => intro st; exact ⟨[], by simp [check_unknown_keys]⟩
  | cons kv rest ih =>
    intro st
    have step : check_unknown_keys valid mk st (kv :: rest)
        = check_unknown_keys valid mk
            (if kv.1 ∈ valid then st else addError st (mk kv.1)) rest := by
      simp [check_unknown_keys]
    rw [step]
    refine errExt_trans ?_ (ih _)
    split
    · exact errExt_refl _
    · exact errExt_addError _ _

theorem check_unknown_keys_texts (valid : List String) (mk : String → VErr) :
    ∀ (kvs : List (String × YVal)) (st : VState),
    (check_unknown_keys valid mk st kvs).node_texts = st.node_texts := by
  intro kvs
  induction kvs with
  | nil => intro st; simp [check_unknown_keys]
  | cons kv rest ih =>
    intro st
    have step : check_unknown_keys valid mk st (kv :: rest)
        = check_unknown_keys valid mk
            (if kv.1 ∈ valid then st else addError st (mk kv.1)) rest := by
      simp [check_unknown_keys]
    rw [step, ih]
    split <;> rfl

theorem problematic_warnings_errors (st : VState) (t : Str) (i : Nat) :
    (problematic_warnings st t i).errors = st.errors := by
  unfold problematic_warnings
  repeat' split
  all_goals rfl

theorem problematic_warnings_texts (st : VState) (t : Str) (i : Nat) :
    (problematic_warnings st t i).node_texts = st.node_texts := by
  unfold problematic_warnings
  repeat' split
  all_goals rfl

theorem validate_table_errExt (st : VState) (v : YVal) (i : Nat) :
    ∃ l, (validate_table st v i).errors = st.errors ++ l := by
  cases v <;> simp only [validate_table] <;> repeat' split
  all_goals first
    | exact errExt_refl _
    | exact errExt_addError _ _

theorem validate_table_texts (st : VState) (v : YVal) (i : Nat) :
    (validate_table st v i).node_texts = st.node_texts := by
  cases v <;> simp only [validate_table] <;> repeat' split
  all_goals rfl

theorem check_node_duplicate_errExt (st : VState) (t : Str) (i : Nat) :
    ∃ l, (check_node_duplicate st t i).errors = st.errors ++ l := by
  unfold check_node_duplicate
  split
  · exact errExt_addError _ _
  · exact errExt_refl _

theorem check_node_duplicate_texts_mem (st : VState) (t : Str) (i : Nat) {x : Str}
    (hx : x ∈ st.node_texts) : x ∈ (check_node_duplicate st t i).node_texts := by
  unfold check_node_duplicate
  split
  · exact hx
  · exact List.mem_cons_of_mem t hx

theorem check_node_duplicate_adds (st : VState) (t : Str) (i : Nat) :
    t ∈ (check_node_duplicate st t i).node_texts := by
  unfold check_node_duplicate
  split
  · next h => exact h
  · exact List.mem_cons_self t _

theorem check_node_duplicate_dup (st : VState) (t : Str) (i : Nat)
    (h : t ∈ st.node_texts) :
    VErr.duplicateText i t ∈ (check_node_duplicate st t i).errors := by
  unfold check_node_duplicate
  rw [if_pos h]
  simp [addError]

theorem check_node_type_errExt (st : VState) (kvs : List (String × YVal)) (i : Nat) :
    ∃ l, (check_node_type st kvs i).errors = st.errors ++ l := by
  unfold check_node_type
  repeat' split
  all_goals first
    | exact errExt_refl _
    | exact errExt_addError _ _
    | exact errExt_trans (errExt_addError _ _) (errExt_addError _ _)

theorem check_node_type_texts (st : VState) (kvs : List (String × YVal)) (i : Nat) :
    (check_node_type st kvs i).node_texts = st.node_texts := by
  unfold check_node_type
  repeat' split
  all_goals rfl

theorem check_node_align_errExt (st : VState) (kvs : List (String × YVal)) (i : Nat) :
    ∃ l, (check_node_align st kvs i).errors = st.errors ++ l := by
  unfold check_node_align
  repeat' split
  all_goals first
    | exact errExt_refl _
    | exact errExt_addError _ _

theorem check_node_align_texts (st : VState) (kvs : List (String × YVal)) (i : Nat) :
    (check_node_align st kvs i).node_texts = st.node_texts := by
  unfold check_node_align
  repeat' split
  all_goals rfl

theorem check_node_attr_errExt (st : VState) (kvs : List (String × YVal)) (i : Nat) :
    ∃ l, (check_node_attr st kvs i).errors = st.errors ++ l := by
  unfold check_node_attr
  repeat' split
  all_goals first
    | exact errExt_refl _
    | exact errExt_addError _ _

theorem check_node_attr_texts (st : VState) (kvs : List (String × YVal)) (i : Nat) :
    (check_node_attr st kvs i).node_texts = st.node_texts := by
  unfold check_node_attr
  repeat' split
  all_goals rfl

theorem check_node_subgraph_errExt (st : VState) (kvs : List (String × YVal)) (i : Nat) :
    ∃ l, (check_node_subgraph st kvs i).errors = st.errors ++ l := by
  unfold check_node_subgraph
  repeat' split
  all_goals first
    | exact errExt_refl _
    | exact errExt_addError _ _

theorem check_node_subgraph_texts (st : VState) (kvs : List (String × YVal)) (i : Nat) :
    (check_node_subgraph st kvs i).node_texts = st.node_texts := by
  unfold check_node_subgraph
  repeat' split
  all_goals rfl

theorem check_node_table_errExt (st : VState) (kvs : List (String × YVal)) (i : Nat) :
    ∃ l, (check_node_table st kvs i).errors = st.errors ++ l := by
  unfold check_node_table
  split
  · exact errExt_refl _
  · exact validate_table_errExt _ _ _

theorem check_node_table_texts (st : VState) (kvs : List (String × YVal)) (i : Nat) :
    (check_node_table st kvs i).node_texts = st.node_texts := by
  unfold check_node_table
  split
  · rfl
  · exact validate_table_texts _ _ _

end Scripts


namespace Scripts

theorem validate_node_errExt (st : VState) (v : YVal) (i : Nat) :
    ∃ l, (validate_node st v i).errors = st.errors ++ l := by
  cases v with
  | dict kvs =>
    cases hlt : kvs.lookup "text" with
    | none =>
      simp only [validate_node, hlt]
      exact errExt_trans (check_unknown_keys_errExt _ _ kvs st) (errExt_addError _ _)
    | some tv =>
      cases tv with
      | str t =>
        by_cases hstrip : stripChars t = []
        · simp only [validate_node, hlt, if_pos hstrip]
          exact errExt_trans (check_unknown_keys_errExt _ _ kvs st) (errExt_addError _ _)
        · simp only [validate_node, hlt, if_neg hstrip]
          refine errExt_trans
            (check_unknown_keys_errExt VALID_NODE_KEYS (VErr.nodeUnknownKey i) kvs st) ?_
          refine errExt_trans
            (check_node_duplicate_errExt
              (check_unknown_keys VALID_NODE_KEYS (VErr.nodeUnknownKey i) st kvs) t i) ?_
          refine errExt_trans
            (show ∃ l,
              (problematic_warnings
                (check_node_duplicate
                  (check_unknown_keys VALID_NODE_KEYS (VErr.nodeUnknownKey i) st kvs) t i)
                t i).errors =
              (check_node_duplicate
                (check_unknown_keys VALID_NODE_KEYS (VErr.nodeUnknownKey i) st kvs)
                t i).errors ++ l
            from ⟨[], by rw [problematic_warnings_errors]; simp⟩) ?_
          refine errExt_trans (check_node_type_errExt
            (problematic_warnings
              (check_node_duplicate
                (check_unknown_keys VALID_NODE_KEYS (VErr.nodeUnknownKey i) st kvs) t i)
              t i) kvs i) ?_
          refine errExt_trans (check_node_align_errExt _ kvs i) ?_
          refine errExt_trans (check_node_attr_errExt _ kvs i) ?_
          refine errExt_trans (check_node_subgraph_errExt _ kvs i) ?_
          exact check_node_table_errExt _ kvs i
      | int n =>
        simp only [validate_node, hlt]
        exact errExt_trans (check_unknown_keys_errExt _ _ kvs st) (errExt_addError _ _)
      | bool b =>
        simp only [validate_node, hlt]
        exact errExt_trans (check_unknown_keys_errExt _ _ kvs st) (errExt_addError _ _)
      | float q =>
        simp only [validate_node, hlt]
        exact errExt_trans (check_unknown_keys_errExt _ _ kvs st) (errExt_addError _ _)
      | list xs =>
        simp only [validate_node, hlt]
        exact errExt_trans (check_unknown_keys_errExt _ _ kvs st) (errExt_addError _ _)
      | dict kvs2 =>
        simp only [validate_node, hlt]
        exact errExt_trans (check_unknown_keys_errExt _ _ kvs st) (errExt_addError _ _)
  | str s => exact errExt_addError _ _
  | int n => exact errExt_addError _ _
  | bool b => exact errExt_addError _ _
  | float q => exact errExt_addError _ _
  | list xs => exact errExt_addError _ _

theorem addError_texts (st : VState) (e : VErr) :
    (addError st e).node_texts = st.node_texts := rfl

theorem validate_node_texts_mem (st : VState) (v : YVal) (i : Nat) {x : Str}
    (hx : x ∈ st.node_texts) : x ∈ (validate_node st v i).node_texts := by
  cases v with
  | dict kvs =>
    cases hlt : kvs.lookup "text" with
    | none =>
      simp only [validate_node, hlt, addError_texts, check_unknown_keys_texts]
      exact hx
    | some tv =>
      cases tv with
      | str t =>
        by_cases hstrip : stripChars t = []
        · simp only [validate_node, hlt, if_pos hstrip, addError_texts, check_unknown_keys_texts]
          exact hx
        · simp only [validate_node, hlt, if_neg hstrip]
          rw [check_node_table_texts, check_node_subgraph_texts, check_node_attr_texts,
            check_node_align_texts, check_node_type_texts, problematic_warnings_texts]
          refine check_node_duplicate_texts_mem _ _ _ ?_
          rw [check_unknown_keys_texts]
          exact hx
      | int n =>
        simp only [validate_node, hlt, addError_texts, check_unknown_keys_texts]
        exact hx
      | bool b =>
        simp only [validate_node, hlt, addError_texts, check_unknown_keys_texts]
        exact hx
      | float q =>
        simp only [validate_node, hlt, addError_texts, check_unknown_keys_texts]
        exact hx
      | list xs =>
        simp only [validate_node, hlt, addError_texts, check_unknown_keys_texts]
        exact hx
      | dict kvs2 =>
        simp only [validate_node, hlt, addError_texts, check_unknown_keys_texts]
        exact hx
  | str s => exact hx
  | int n => exact hx
  | bool b => exact hx
  | float q => exact hx
  | list xs => exact hx

/-- A node with a valid non-blank text t leaves t in the node_texts set. -/
theorem validate_node_adds_text (st : VState) (kvs : List (String × YVal)) (i : Nat)
    (t : Str) (hlt : kvs.lookup "text" = some (.str t)) (hstrip : stripChars t ≠ []) :
    t ∈ (validate_node st (.dict kvs) i).node_texts := by
  simp only [validate_node, hlt, if_neg hstrip]
  rw [check_node_table_texts, check_node_subgraph_texts, check_node_attr_texts,
    check_node_align_texts, check_node_type_texts, problematic_warnings_texts]
  exact check_node_duplicate_adds _ _ _

/-- A node with a valid non-blank text t already present in node_texts
raises the duplicate-text error. -/
theorem validate_node_dup (st : VState) (kvs : List (String × YVal)) (i : Nat)
    (t : Str) (hlt : kvs.lookup "text" = some (.str t)) (hstrip : stripChars t ≠ [])
    (hmem : t ∈ st.node_texts) :
    VErr.duplicateText i t ∈ (validate_node st (.dict kvs) i).errors := by
  simp only [validate_node, hlt, if_neg hstrip]
  have h1 : t ∈ (check_unknown_keys VALID_NODE_KEYS (.nodeUnknownKey i) st kvs).node_texts := by
    rw [check_unknown_keys_texts]
    exact hmem
  have h2 := check_node_duplicate_dup _ t i h1
  refine mem_errors_mono (check_node_table_errExt _ _ _)
    (mem_errors_mono (check_node_subgraph_errExt _ _ _)
      (mem_errors_mono (check_node_attr_errExt _ _ _)
        (mem_errors_mono (check_node_align_errExt _ _ _)
          (mem_errors_mono (check_node_type_errExt _ _ _)
            (mem_errors_mono ⟨[], by rw [problematic_warnings_errors]; simp⟩ h2)))))

end Scripts

namespace Scripts

theorem errExt_peel {a b : VState} (e : VErr) (h : ∃ l, b.errors = a.errors ++ l) :
    ∃ l, (addError b e).errors = a.errors ++ l :=
  errExt_trans h (errExt_addError b e)

theorem errExt_peel_warn {a b : VState} (w : VWarn) (h : ∃ l, b.errors = a.errors ++ l) :
    ∃ l, (addWarning b w).errors = a.errors ++ l :=
  errExt_trans h (errExt_addWarning b w)

theorem errExt_peel_keys (valid : List String) (mk : String → VErr)
    {a b : VState} (kvs : List (String × YVal)) (h : ∃ l, b.errors = a.errors ++ l) :
    ∃ l, (check_unknown_keys valid mk b kvs).errors = a.errors ++ l :=
  errExt_trans h (check_unknown_keys_errExt valid mk kvs b)

theorem check_from_errExt (st : VState) (fv : YVal) (i : Nat) :
    ∃ l, (check_from st fv i).errors = st.errors ++ l := by
  unfold check_from
  repeat' split
  all_goals first
    | exact errExt_refl _
    | exact errExt_addError _ _

theorem check_to_errExt (st : VState) (tv : YVal) (i : Nat) :
    ∃ l, (check_to st tv i).errors = st.errors ++ l := by
  unfold check_to
  repeat' split
  all_goals first
    | exact errExt_refl _
    | exact errExt_addError _ _

theorem check_self_errExt (st : VState) (fv tv : YVal) (i : Nat) :
    ∃ l, (check_self st fv tv i).errors = st.errors ++ l := by
  unfold check_self
  repeat' split
  all_goals first
    | exact errExt_refl _
    | exact errExt_addError _ _

theorem check_dup_pair_errExt (st : VState) (fv tv : YVal) (i : Nat) :
    ∃ l, (check_dup_pair st fv tv i).errors = st.errors ++ l := by
  unfold check_dup_pair
  repeat' split
  all_goals first
    | exact errExt_refl _
    | exact errExt_addError _ _

theorem check_directed_errExt (st : VState) (kvs : List (String × YVal)) (i : Nat) :
    ∃ l, (check_directed st kvs i).errors = st.errors ++ l := by
  unfold check_directed
  repeat' split
  all_goals first
    | exact errExt_refl _
    | exact errExt_addError _ _

theorem validate_connection_errExt (st : VState) (v : YVal) (i : Nat) :
    ∃ l, (validate_connection st v i).errors = st.errors ++ l := by
  cases v with
  | dict kvs =>
    cases hlf : kvs.lookup "from" with
    | none =>
      simp only [validate_connection, hlf]
      exact errExt_peel _ (errExt_peel_keys _ _ kvs (errExt_refl st))
    | some fv =>
      cases hltv : kvs.lookup "to" with
      | none =>
        simp only [validate_connection, hlf, hltv]
        exact errExt_peel _ (errExt_trans
          (errExt_peel_keys _ _ kvs (errExt_refl st)) (check_from_errExt _ fv i))
      | some tv =>
        simp only [validate_connection, hlf, hltv]
        refine errExt_trans ?_ (check_directed_errExt _ kvs i)
        refine errExt_trans ?_ (check_dup_pair_errExt _ fv tv i)
        refine errExt_trans ?_ (check_self_errExt _ fv tv i)
        refine errExt_trans ?_ (check_to_errExt _ tv i)
        refine errExt_trans ?_ (check_from_errExt _ fv i)
        exact errExt_peel_keys _ _ kvs (errExt_refl st)
  | str s => exact errExt_addError _ _
  | int n => exact errExt_addError _ _
  | bool b => exact errExt_addError _ _
  | float q => exact errExt_addError _ _
  | list xs => exact errExt_addError _ _

/-- A connection whose from and to fields hold the same text always
collects the self-connection error. -/
theorem validate_connection_self (st : VState) (kvs : List (String × YVal)) (i : Nat)
    (t : Str) (hlf : kvs.lookup "from" = some (.str t))
    (hltv : kvs.lookup "to" = some (.str t)) :
    VErr.selfConnection i t ∈ (validate_connection st (.dict kvs) i).errors := by
  simp only [validate_connection, hlf, hltv]
  have hself : VErr.selfConnection i t ∈
      (check_self (check_to (check_from
        (check_unknown_keys VALID_CONNECTION_KEYS (VErr.connUnknownKey i) st kvs)
        (.str t) i) (.str t) i) (.str t) (.str t) i).errors := by
    simp only [check_self, if_pos rfl, addError]
    exact List.mem_append_right _ (List.mem_singleton.mpr rfl)
  exact mem_errors_mono (check_directed_errExt _ kvs i)
    (mem_errors_mono (check_dup_pair_errExt _ _ _ i) hself)

theorem foldIdx_errExt {α : Type} (f : VState → α → Nat → VState)
    (hf : ∀ st v i, ∃ l, (f st v i).errors = st.errors ++ l) :
    ∀ (l : List α) (st : VState) (i : Nat),
    ∃ l2, (foldIdx f st l i).errors = st.errors ++ l2 := by
  intro l
  induction l with
  | nil => intro st i; exact errExt_refl st
  | cons x rest ih =>
    intro st i
    exact errExt_trans (hf st x i) (ih (f st x i) (i + 1))

theorem errExt_peel_fold {α : Type} {f : VState → α → Nat → VState}
    (hf : ∀ st v i, ∃ l, (f st v i).errors = st.errors ++ l)
    {a b : VState} (l : List α) (i : Nat) (h : ∃ l2, b.errors = a.errors ++ l2) :
    ∃ l2, (foldIdx f b l i).errors = a.errors ++ l2 :=
  errExt_trans h (foldIdx_errExt f hf l b i)

theorem foldIdx_texts_mem {α : Type} (f : VState → α → Nat → VState)
    (hf : ∀ st v i (x : Str), x ∈ st.node_texts → x ∈ (f st v i).node_texts) :
    ∀ (l : List α) (st : VState) (i : Nat) (x : Str),
    x ∈ st.node_texts → x ∈ (foldIdx f st l i).node_texts := by
  intro l
  induction l with
  | nil => intro st i x hx; exact hx
  | cons y rest ih =>
    intro st i x hx
    exact ih (f st y i) (i + 1) x (hf st y i x hx)

theorem foldIdx_get_split {α : Type} (f : VState → α → Nat → VState) :
    ∀ (l : List α) (k : Nat) (a : α), l.get? k = some a →
    ∀ (st : VState) (i : Nat),
    foldIdx f st l i =
      foldIdx f (f (foldIdx f st (l.take k) i) a (i + k)) (l.drop (k + 1)) (i + k + 1) := by
  intro l
  induction l with
  | nil => intro k a h; simp at h
  | cons x rest ih =>
    intro k a h st i
    cases k with
    | zero =>
      simp only [List.get?] at h
      cases h
      simp [foldIdx]
    | succ k2 =>
      simp only [List.get?] at h
      have := ih k2 a h (f st x i) (i + 1)
      simp only [List.take, List.drop, foldIdx]
      rw [this]
      have h1 : i + 1 + k2 = i + (k2 + 1) := by omega
      rw [h1]

theorem validate_group_errExt (st : VState) (v : YVal) (i : Nat) :
    ∃ l, (validate_group st v i).errors = st.errors ++ l := by
  have hinner : ∀ (st2 : VState) (rv : YVal) (j : Nat),
      ∃ l, ((fun (st : VState) (rv : YVal) (j : Nat) =>
        match rv with
        | YVal.str t =>
          if t ∈ st.node_texts then st else addError st (.groupRefNotFound i j t)
        | _ => addError st (.groupRefNotString i j)) st2 rv j).errors
        = st2.errors ++ l := by
    intro st2 rv j
    beta_reduce
    repeat' split
    all_goals first
      | exact errExt_refl _
      | exact errExt_addError _ _
  cases v with
  | dict kvs =>
    simp only [validate_group]
    repeat' split
    all_goals
      repeat' first
        | exact errExt_refl _
        | apply errExt_peel
        | apply errExt_peel_fold hinner
        | apply errExt_peel_keys
  | str s => exact errExt_addError _ _
  | int n => exact errExt_addError _ _
  | bool b => exact errExt_addError _ _
  | float q => exact errExt_addError _ _
  | list xs => exact errExt_addError _ _

set_option maxHeartbeats 3200000 in
theorem validate_layout_errExt (st : VState) (v : YVal) :
    ∃ l, (validate_layout st v).errors = st.errors ++ l := by
  cases v with
  | dict kvs =>
    simp only [validate_layout]
    repeat' split
    all_goals
      repeat' first
        | exact errExt_refl _
        | apply errExt_peel
        | apply errExt_peel_keys
  | str s => exact errExt_addError _ _
  | int n => exact errExt_addError _ _
  | bool b => exact errExt_addError _ _
  | float q => exact errExt_addError _ _
  | list xs => exact errExt_addError _ _

theorem connections_section_errExt (st : VState) (kvs : List (String × YVal)) :
    ∃ l, (connections_section st kvs).errors = st.errors ++ l := by
  unfold connections_section
  split
  · exact errExt_refl _
  · exact foldIdx_errExt _ validate_connection_errExt _ _ 0
  · exact errExt_addError _ _

theorem groups_section_errExt (st : VState) (kvs : List (String × YVal)) :
    ∃ l, (groups_section st kvs).errors = st.errors ++ l := by
  unfold groups_section
  split
  · exact errExt_refl _
  · exact foldIdx_errExt _ validate_group_errExt _ _ 0
  · exact errExt_addError _ _

theorem layout_section_errExt (st : VState) (kvs : List (String × YVal)) :
    ∃ l, (layout_section st kvs).errors = st.errors ++ l := by
  unfold layout_section
  split
  · exact errExt_refl _
  · exact validate_layout_errExt _ _

end Scripts

namespace Scripts

theorem check_unknown_keys_mem (valid : List String) (mk : String → VErr) :
    ∀ (kvs : List (String × YVal)) (st : VState) (k : String) (w : YVal),
    (k, w) ∈ kvs → k ∉ valid → mk k ∈ (check_unknown_keys valid mk st kvs).errors := by
  intro kvs
  induction kvs with
  | nil => intro st k w hmem; simp at hmem
  | cons kv rest ih =>
    intro st k w hmem hnv
    rcases List.mem_cons.mp hmem with hhead | htail
    · have hk : kv.1 = k := by rw [← hhead]
      have hstep : check_unknown_keys valid mk st (kv :: rest)
          = check_unknown_keys valid mk (addError st (mk k)) rest := by
        simp only [check_unknown_keys, List.foldl_cons, hk, if_neg hnv]
      rw [hstep]
      refine mem_errors_mono (check_unknown_keys_errExt valid mk rest _) ?_
      exact List.mem_append_right _ (List.mem_singleton.mpr rfl)
    · have hstep : check_unknown_keys valid mk st (kv :: rest)
          = check_unknown_keys valid mk
              (if kv.1 ∈ valid then st else addError st (mk kv.1)) rest := by
        simp only [check_unknown_keys, List.foldl_cons]
      rw [hstep]
      exact ih _ k w htail hnv

end Scripts

namespace Scripts

/-- A document with any collected validation error is rejected before the
layout stage. -/
theorem stage_rejected_of_mem {doc : YVal} {e : VErr}
    (h : e ∈ (validate doc).errors) :
    convert_single_file_stage doc = .rejectedBeforeLayout := by
  unfold convert_single_file_stage
  cases hl : (validate doc).errors with
  | nil => rw [hl] at h; cases h
  | cons a l => rfl

/-- C7: For every document whose nodes entry is a list and whose
connections entry is a list containing, at index i, a mapping whose from
and to fields hold the same text t, the validator always collects the
self-connection SchemaError for that connection, and convert_single_file
rejects the document before the layout engine is invoked.  (This realizes
the claim for the scripts/yaml_convert.py pipeline; the tools/converter.py
path performs no such check and does emit self-edges.) -/
theorem self_connection_always_rejected
    (kvs : List (String × YVal)) (ns cs : List YVal)
    (i : Nat) (ckvs : List (String × YVal)) (t : Str)
    (hln : kvs.lookup "nodes" = some (.list ns))
    (hlc : kvs.lookup "connections" = some (.list cs))
    (hci : cs.get? i = some (.dict ckvs))
    (hlf : ckvs.lookup "from" = some (.str t))
    (hlt : ckvs.lookup "to" = some (.str t)) :
    VErr.selfConnection i t ∈ (validate (.dict kvs)).errors ∧
    convert_single_file_stage (.dict kvs) = .rejectedBeforeLayout := by
  have hmem : VErr.selfConnection i t ∈ (validate (.dict kvs)).errors := by
    simp only [validate, hln]
    refine mem_errors_mono (layout_section_errExt _ kvs) ?_
    refine mem_errors_mono (groups_section_errExt _ kvs) ?_
    simp only [connections_section, hlc]
    rw [foldIdx_get_split validate_connection cs i _ hci _ 0]
    refine mem_errors_mono (foldIdx_errExt _ validate_connection_errExt _ _ _) ?_
    simp only [Nat.zero_add]
    exact validate_connection_self _ ckvs i t hlf hlt
  exact ⟨hmem, stage_rejected_of_mem hmem⟩

/-- C7 witness: a concrete two-node document with a connection from A to A
is rejected with the self-connection error before layout. -/
theorem self_connection_always_rejected_witness :
    ([(("nodes" : String), YVal.list [.dict [("text", .str ['A'])]]),
      ("connections", YVal.list [.dict [("from", .str ['A']), ("to", .str ['A'])]])]
        |>.lookup "nodes") = some (.list [.dict [("text", .str ['A'])]]) ∧
    VErr.selfConnection 0 ['A'] ∈
      (validate (.dict [("nodes", YVal.list [.dict [("text", .str ['A'])]]),
        ("connections", YVal.list
          [.dict [("from", .str ['A']), ("to", .str ['A'])]])])).errors ∧
    convert_single_file_stage (.dict [("nodes", YVal.list [.dict [("text", .str ['A'])]]),
        ("connections", YVal.list
          [.dict [("from", .str ['A']), ("to", .str ['A'])]])]) = .rejectedBeforeLayout := by
  have h := self_connection_always_rejected
    [("nodes", YVal.list [.dict [("text", .str ['A'])]]),
     ("connections", YVal.list [.dict [("from", .str ['A']), ("to", .str ['A'])]])]
    [.dict [("text", .str ['A'])]]
    [.dict [("from", .str ['A']), ("to", .str ['A'])]]
    0 [("from", .str ['A']), ("to", .str ['A'])] ['A']
    rfl rfl rfl rfl rfl
  exact ⟨rfl, h.1, h.2⟩

end Scripts

namespace Scripts

/-- C8: For every document whose nodes entry is a list holding, at indices
i < j, two mappings with the same valid (non-blank string) text t, the
validator always collects the duplicate-text SchemaError at index j, and
convert_single_file rejects the document before the layout engine is
invoked.  (This realizes the claim for the scripts/yaml_convert.py
pipeline; the tools pipeline performs no duplicate-text check.) -/
theorem duplicate_text_rejected_before_layout
    (kvs : List (String × YVal)) (ns : List YVal)
    (i j : Nat) (kvsi kvsj : List (String × YVal)) (t : Str)
    (hln : kvs.lookup "nodes" = some (.list ns))
    (hij : i < j)
    (hgi : ns.get? i = some (.dict kvsi))
    (hti : kvsi.lookup "text" = some (.str t))
    (hgj : ns.get? j = some (.dict kvsj))
    (htj : kvsj.lookup "text" = some (.str t))
    (hstrip : stripChars t ≠ []) :
    VErr.duplicateText j t ∈ (validate (.dict kvs)).errors ∧
    convert_single_file_stage (.dict kvs) = .rejectedBeforeLayout := by
  have hmem : VErr.duplicateText j t ∈ (validate (.dict kvs)).errors := by
    simp only [validate, hln]
    refine mem_errors_mono (layout_section_errExt _ kvs) ?_
    refine mem_errors_mono (groups_section_errExt _ kvs) ?_
    refine mem_errors_mono (connections_section_errExt _ kvs) ?_
    rw [foldIdx_get_split validate_node ns j _ hgj _ 0]
    refine mem_errors_mono (foldIdx_errExt _ validate_node_errExt _ _ _) ?_
    simp only [Nat.zero_add]
    refine validate_node_dup _ kvsj j t htj hstrip ?_
    have htake : (ns.take j).get? i = some (.dict kvsi) := by
      rw [List.get?_take hij]
      exact hgi
    rw [foldIdx_get_split validate_node (ns.take j) i _ htake _ 0]
    refine foldIdx_texts_mem validate_node
      (fun st v k x hx => validate_node_texts_mem st v k hx) _ _ _ t ?_
    simp only [Nat.zero_add]
    exact validate_node_adds_text _ kvsi i t hti hstrip
  exact ⟨hmem, stage_rejected_of_mem hmem⟩

/-- C8 witness: a concrete document with two nodes both labelled A is
rejected with the duplicate-text error before layout. -/
theorem duplicate_text_rejected_before_layout_witness :
    (0 : Nat) < 1 ∧ stripChars ['A'] ≠ [] ∧
    VErr.duplicateText 1 ['A'] ∈
      (validate (.dict [("nodes", YVal.list
        [.dict [("text", .str ['A'])], .dict [("text", .str ['A'])]])])).errors ∧
    convert_single_file_stage (.dict [("nodes", YVal.list
        [.dict [("text", .str ['A'])], .dict [("text", .str ['A'])]])])
      = .rejectedBeforeLayout := by
  have h := duplicate_text_rejected_before_layout
    [("nodes", YVal.list [.dict [("text", .str ['A'])], .dict [("text", .str ['A'])]])]
    [.dict [("text", .str ['A'])], .dict [("text", .str ['A'])]]
    0 1 [("text", .str ['A'])] [("text", .str ['A'])] ['A']
    rfl (by decide) rfl rfl rfl rfl (by decide)
  exact ⟨by decide, by decide, h.1, h.2⟩

end Scripts

namespace Scripts

/-- C9: Once the nodes entry is present and is a list, validation runs
every remaining section and accumulates their errors in a single pass:
a document carrying both an unknown root key and a non-list connections
entry reports both defects.  (The unqualified claim fails: a missing or
non-list nodes entry makes validate return early, dropping later
defects.) -/
theorem errors_accumulate_across_sections
    (kvs : List (String × YVal)) (ns : List YVal) (k : String) (w : YVal) (cv : YVal)
    (hkv : (k, w) ∈ kvs) (hkvalid : k ∉ VALID_ROOT_KEYS)
    (hln : kvs.lookup "nodes" = some (.list ns))
    (hlc : kvs.lookup "connections" = some cv)
    (hnl : ∀ cs, cv ≠ .list cs) :
    VErr.unknownRootKey k ∈ (validate (.dict kvs)).errors ∧
    VErr.connectionsNotList ∈ (validate (.dict kvs)).errors := by
  have hconn_eq : ∀ st, connections_section st kvs = addError st .connectionsNotList := by
    intro st
    cases cv with
    | list cs => exact absurd rfl (hnl cs)
    | str s => simp only [connections_section, hlc]
    | int n => simp only [connections_section, hlc]
    | bool b => simp only [connections_section, hlc]
    | float q => simp only [connections_section, hlc]
    | dict kvs2 => simp only [connections_section, hlc]
  have h0 : VErr.unknownRootKey k ∈
      (check_unknown_keys VALID_ROOT_KEYS (.unknownRootKey) {} kvs).errors :=
    check_unknown_keys_mem _ _ kvs {} k w hkv hkvalid
  constructor
  · simp only [validate, hln]
    refine mem_errors_mono (layout_section_errExt _ kvs) ?_
    refine mem_errors_mono (groups_section_errExt _ kvs) ?_
    rw [hconn_eq]
    refine mem_errors_mono (errExt_addError _ _) ?_
    refine mem_errors_mono (foldIdx_errExt _ validate_node_errExt _ _ _) ?_
    split
    · exact h0
    · exact h0
  · simp only [validate, hln]
    refine mem_errors_mono (layout_section_errExt _ kvs) ?_
    refine mem_errors_mono (groups_section_errExt _ kvs) ?_
    rw [hconn_eq]
    exact List.mem_append_right _ (List.mem_singleton.mpr rfl)

/-- C9 witness: a concrete document with a well-formed nodes list, an
unknown root key and a non-list connections entry reports both defects in
one pass. -/
theorem errors_accumulate_across_sections_witness :
    ("bogus" : String) ∉ VALID_ROOT_KEYS ∧
    VErr.unknownRootKey "bogus" ∈
      (validate (.dict [("bogus", YVal.int 1), ("nodes", YVal.list []),
        ("connections", YVal.int 5)])).errors ∧
    VErr.connectionsNotList ∈
      (validate (.dict [("bogus", YVal.int 1), ("nodes", YVal.list []),
        ("connections", YVal.int 5)])).errors := by
  have h := errors_accumulate_across_sections
    [("bogus", YVal.int 1), ("nodes", YVal.list []), ("connections", YVal.int 5)]
    [] "bogus" (YVal.int 1) (YVal.int 5)
    (List.mem_cons_self _ _) (by decide) rfl rfl
    (fun cs h => YVal.noConfusion h)
  exact ⟨by decide, h.1, h.2⟩

end Scripts
